import Mathlib

/-!
Verification of the change-reconciliation and review engine of the
conductor backend (`src/backend/api.py`, `src/backend/module.py`,
`src/backend/action_logger.py`) against its natural-language specification.

The Python endpoints are shallowly embedded as pure Lean functions over
explicit state records.  Timestamps are modelled as natural numbers
(seconds); the nullable text columns `description` and `script` are
modelled as `String`, which is faithful because every code path that
touches them normalises `None` to `''` (`or ''` / `.get(..., '')`).
The Socket.IO notification side channel is external I/O (spec section 6)
and is not part of the embedded state.
-/

namespace Conductor

/-- A persisted row (`module.py`, class `Row`): content fields plus the
`updated_at` ordering timestamp.  `script_result` is the nullable Boolean
column. -/
structure Row where
  id : Nat
  role : String
  time : String
  duration : String
  description : String
  script : String
  status : String
  script_result : Option Bool
  updated_at : Nat
  deriving DecidableEq, Repr

/-- The JSON body of a `PUT /api/rows/<id>` request (`update_row`):
a field is `none` when the key is absent from the request. -/
structure UpdateData where
  role : Option String := none
  time : Option String := none
  duration : Option String := none
  description : Option String := none
  script : Option String := none
  status : Option String := none
  scriptResult : Option (Option Bool) := none
  deriving DecidableEq, Repr

/-- Python `'f' in data and data.get('f') != row.f` for a string field. -/
def fieldChanged (field : Option String) (current : String) : Bool :=
  match field with
  | none => false
  | some v => v ≠ current

/-- Python `'scriptResult' in data and data.get('scriptResult') != row.script_result`. -/
def resultChanged (field : Option (Option Bool)) (current : Option Bool) : Bool :=
  match field with
  | none => false
  | some v => v ≠ current

/-- Embedding of `update_row` (`api.py` lines 416-511).  When only the
status changed (and it actually changed), the raw-SQL path rewrites
`updated_at` verbatim to its prior value; otherwise the normal path
rewrites every supplied field and sets `updated_at` to the current time. -/
def update_row (row : Row) (data : UpdateData) (now : Nat) : Row :=
  let old_status := row.status
  let new_status := (data.status).getD row.status
  let role_changed := fieldChanged data.role row.role
  let time_changed := fieldChanged data.time row.time
  let duration_changed := fieldChanged data.duration row.duration
  let description_changed := fieldChanged data.description row.description
  let script_changed := fieldChanged data.script row.script
  let script_result_changed := resultChanged data.scriptResult row.script_result
  let only_status_changed :=
    !role_changed && !time_changed && !duration_changed &&
    !description_changed && !script_changed && !script_result_changed &&
    old_status ≠ new_status
  if only_status_changed then
    { row with status := new_status }
  else
    { row with
      role := (data.role).getD row.role
      time := (data.time).getD row.time
      duration := (data.duration).getD row.duration
      description := (data.description).getD row.description
      script := (data.script).getD row.script
      status := new_status
      script_result := (data.scriptResult).getD row.script_result
      updated_at := now }

/-- The derived ordering key of a row: display order within a phase sorts
rows by `(updated_at, id)` ascending (`module.py` line 95,
`order_by='Row.updated_at, Row.id'`). -/
def rowKey (r : Row) : Nat × Nat := (r.updated_at, r.id)

/-- Strict lexicographic comparison of two ordering keys. -/
def keyLt (a b : Nat × Nat) : Bool := a.1 < b.1 || (a.1 = b.1 && a.2 < b.2)

/-- Display position of a row among its siblings: the number of siblings
whose ordering key is strictly smaller.  For pairwise-distinct keys this
is exactly the row's index in the `(updated_at, id)`-sorted listing. -/
def displayPos (r : Row) (siblings : List Row) : Nat :=
  (siblings.filter (fun s => keyLt (rowKey s) (rowKey r))).length

end Conductor

open Conductor

/-- C3: an update that changes only `status` keeps `updated_at` and the
display position among any fixed set of siblings unchanged, while an
update that changes `description` stamps `updated_at := now`, so with a
fresh clock (now later than every sibling's timestamp) the row lands in
the most-recently-modified position. -/
theorem C3_status_only_keeps_order (row : Row) (d₁ d₂ : UpdateData) (now : Nat)
    (siblings : List Row)
    (h₁ : fieldChanged d₁.role row.role = false)
    (h₂ : fieldChanged d₁.time row.time = false)
    (h₃ : fieldChanged d₁.duration row.duration = false)
    (h₄ : fieldChanged d₁.description row.description = false)
    (h₅ : fieldChanged d₁.script row.script = false)
    (h₆ : resultChanged d₁.scriptResult row.script_result = false)
    (h₇ : d₁.status = some ns) (h₈ : ns ≠ row.status)
    (h₉ : fieldChanged d₂.description row.description = true)
    (hfresh : ∀ s ∈ siblings, s.updated_at < now) :
    (update_row row d₁ now).updated_at = row.updated_at ∧
    displayPos (update_row row d₁ now) siblings = displayPos row siblings ∧
    (update_row row d₂ now).updated_at = now ∧
    displayPos (update_row row d₂ now) siblings = siblings.length := by
  have hs : row.status ≠ ns := fun h => h₈ h.symm
  constructor
  · simp [update_row, h₁, h₂, h₃, h₄, h₅, h₆, h₇, hs]
  constructor
  · simp [displayPos, update_row, rowKey, h₁, h₂, h₃, h₄, h₅, h₆, h₇, hs]
  constructor
  · simp [update_row, h₉]
  · simp only [displayPos]
    have hall : ∀ s ∈ siblings,
        keyLt (rowKey s) (rowKey (update_row row d₂ now)) = true := by
      intro s hsib
      simp [keyLt, rowKey, update_row, h₉, hfresh s hsib]
    rw [List.filter_eq_self.mpr hall]

/-- C3 witness: a concrete row, a status-only request, and a
description-changing request behave as stated. -/
theorem C3_status_only_keeps_order_witness :
    (update_row ⟨1, "r", "t", "d", "desc", "sc", "N/A", none, 5⟩
        { status := some "Passed" } 9).updated_at = 5 ∧
    (update_row ⟨1, "r", "t", "d", "desc", "sc", "N/A", none, 5⟩
        { description := some "new" } 9).updated_at = 9 := by
  have h := C3_status_only_keeps_order
    ⟨1, "r", "t", "d", "desc", "sc", "N/A", none, 5⟩
    { status := some "Passed" } { description := some "new" } 9
    [⟨2, "r", "t", "d", "x", "sc", "N/A", none, 4⟩]
    (by decide) (by decide) (by decide) (by decide) (by decide) (by decide)
    rfl (by decide) (by decide) (by decide)
  exact ⟨h.1, h.2.2.1⟩

/-- C4 counterexample: a request that changes only `scriptResult` (status
and every other content field unchanged) takes the normal update path of
`update_row` and rewrites `updated_at` to the current time, not verbatim
to its prior value. -/
theorem C4_script_result_only_counterexample :
    (update_row ⟨1, "r", "t", "d", "desc", "sc", "N/A", none, 5⟩
        { scriptResult := some (some true) } 9).updated_at ≠ 5 := by
  decide

/-- C4 amended: a request that changes only `script_result` (status and
every other content field unchanged) advances the row's last-modified
timestamp to the current time; only a status-only change preserves it
verbatim. -/
theorem C4_script_result_only_advances (row : Row) (d : UpdateData) (now : Nat)
    (h₁ : fieldChanged d.role row.role = false)
    (h₂ : fieldChanged d.time row.time = false)
    (h₃ : fieldChanged d.duration row.duration = false)
    (h₄ : fieldChanged d.description row.description = false)
    (h₅ : fieldChanged d.script row.script = false)
    (h₆ : resultChanged d.scriptResult row.script_result = true) :
    (update_row row d now).updated_at = now := by
  simp [update_row, h₆]

/-- C4 amended witness at a concrete row and request. -/
theorem C4_script_result_only_advances_witness :
    (update_row ⟨1, "r", "t", "d", "desc", "sc", "N/A", none, 5⟩
        { scriptResult := some (some true) } 9).updated_at = 9 :=
  C4_script_result_only_advances
    ⟨1, "r", "t", "d", "desc", "sc", "N/A", none, 5⟩
    { scriptResult := some (some true) } 9
    (by decide) (by decide) (by decide) (by decide) (by decide) (by decide)

namespace Conductor

/-- Python truthiness of an optional integer identifier (`if not row_id`):
absent and zero are both falsy. -/
def truthy : Option Nat → Bool
  | none => false
  | some n => n ≠ 0

/-- Python `str(x)` on an optional identifier, as used by the
`row_duplicate` handler's `str(row_id) == str(new_row_id_temp)` check. -/
def idStr : Option Nat → String
  | none => "None"
  | some n => toString n

/-- A persisted phase (`module.py`, class `Phase`). -/
structure PhaseRec where
  id : Nat
  phase_number : Nat
  is_active : Bool := false
  deriving DecidableEq, Repr

/-- A persisted row, keyed by its durable identifier and its phase's id. -/
structure RowRec where
  id : Nat
  phase_id : Nat
  role : String
  time : String
  duration : String
  description : String
  script : String
  status : String
  script_result : Option Bool := none
  updated_at : Nat := 0
  deriving DecidableEq, Repr

/-- A persisted periodic script (`module.py`, class `PeriodicScript`). -/
structure ScriptRec where
  id : Nat
  name : String
  path : String
  status : Bool := false
  deriving DecidableEq, Repr

/-- Review status of a pending change. -/
inductive CStatus
  | pending
  | accepted
  | declined
  deriving DecidableEq, Repr

/-- One row of a client-submitted snapshot (an element of a `table_data`
payload's per-phase `rows` list).  `id` may be a durable id, a temporary
client id (a large timestamp), or absent. -/
structure SRow where
  id : Option Nat := none
  role : String := ""
  time : String := "00:00:00"
  duration : String := "00:00"
  description : String := ""
  script : String := ""
  status : String := "N/A"
  scriptResult : Option Bool := none
  deriving DecidableEq, Repr

/-- One phase of a client-submitted snapshot. -/
structure SPhase where
  id : Option Nat := none
  phase : Option Nat := none
  is_active : Option Bool := none
  rows : List SRow := []
  deriving DecidableEq, Repr

/-- The six-field row payload carried by `row_add` / `row_update` /
`row_delete` changes.  `create_pending_change` always serialises all six
fields, so the `.get(..., default)` fallbacks in the accept handler never
fire and the fields are modelled as present. -/
structure RowData where
  role : String := ""
  time : String := "00:00:00"
  duration : String := "00:00"
  description : String := ""
  script : String := ""
  status : String := "N/A"
  deriving DecidableEq, Repr

/-- The (name, path, status) script payload carried by script changes. -/
structure ScriptData where
  name : String := ""
  path : String := ""
  status : Bool := false
  deriving DecidableEq, Repr

/-- The typed `changes_data` payload of a pending change, one constructor
per `change_type` (`api.py`, `create_pending_change`). -/
inductive ChangeData
  | version (old_version new_version : String)
  | row_add (phase_number : Nat) (phase_id : Option Nat) (row_data : RowData)
  | row_update (row_id : Nat) (old_data new_data : RowData)
  | row_delete (row_id : Nat) (row_data : RowData)
  | row_move (row_id source_phase_number target_phase_number target_position : Nat)
      (source_row_index : Option Nat)
  | row_duplicate (source_row_id : Nat) (new_row_id : Option Nat)
      (target_phase_number target_position : Nat)
  | role_add (role : String)
  | role_delete (role : String)
  | script_add (script_data : ScriptData)
  | script_update (script_id : Nat) (old_data new_data : ScriptData)
  | script_delete (script_id : Nat) (script_data : ScriptData)
  | table_data (snapshot : List SPhase)
  deriving DecidableEq, Repr

/-- Whether a change payload is the internal `table_data` bookkeeping
record (excluded from user-visible listings and pending counts). -/
def ChangeData.isTableData : ChangeData → Bool
  | .table_data _ => true
  | _ => false

/-- A pending change record (`module.py`, class `PendingChange`). -/
structure PendingChangeRec where
  id : Nat
  submission_id : Nat
  submitted_by : String
  submitted_by_role : String
  data : ChangeData
  status : CStatus := .pending
  reviewed_by : Option String := none
  reviewed_at : Option Nat := none
  deriving DecidableEq, Repr

/-- An audit-log record (`module.py`, class `ActionLog`).  The free-form
JSON `action_details` column is not needed by any claim and is omitted. -/
structure ActionLogRec where
  user_name : String
  user_role : String
  action_type : String
  script_result : Option Bool := none
  row_id : Option Nat := none
  phase_id : Option Nat := none
  reset_epoch : Nat := 0
  timestamp : Nat := 0
  deriving DecidableEq, Repr

/-- The durable store of one project: the data model of `module.py`
restricted to a single project, plus autoincrement counters for the
three tables whose rows the engine creates. -/
structure StoreState where
  version : String
  manager_role : String
  reset_epoch : Nat := 0
  phases : List PhaseRec := []
  rows : List RowRec := []
  roles : List String := []
  scripts : List ScriptRec := []
  changes : List PendingChangeRec := []
  logs : List ActionLogRec := []
  nextPhaseId : Nat := 1
  nextRowId : Nat := 1
  nextScriptId : Nat := 1
  deriving DecidableEq, Repr

/-- `PendingChange.query.filter_by(project_id, id=change_id, status='pending').first()`. -/
def findPendingChange (s : StoreState) (change_id : Nat) : Option PendingChangeRec :=
  s.changes.find? (fun pc => pc.id = change_id && pc.status = CStatus.pending)

/-- `PendingChange.query.filter_by(submission_id, change_type='table_data', status='pending').first()`. -/
def findPendingTableData (cs : List PendingChangeRec) (submission_id : Nat) :
    Option PendingChangeRec :=
  cs.find? (fun pc =>
    pc.submission_id = submission_id && pc.data.isTableData && pc.status = CStatus.pending)

/-- ORM-object update: rewrite the unique record with the given primary
key (primary keys are unique in the store). -/
def updateChangeById (cs : List PendingChangeRec) (cid : Nat)
    (f : PendingChangeRec → PendingChangeRec) : List PendingChangeRec :=
  cs.map (fun pc => if pc.id = cid then f pc else pc)

/-- ORM-object update for rows, by primary key. -/
def updateRowById (rs : List RowRec) (rid : Nat) (f : RowRec → RowRec) : List RowRec :=
  rs.map (fun r => if r.id = rid then f r else r)

/-- Create a row from a change payload; newly inserted rows get the
store's default timestamps (`datetime.utcnow`). -/
def newRowFromData (rid pid : Nat) (rd : RowData) (now : Nat) : RowRec :=
  { id := rid, phase_id := pid, role := rd.role, time := rd.time, duration := rd.duration,
    description := rd.description, script := rd.script, status := rd.status,
    script_result := none, updated_at := now }

/-- Rewrite, inside one snapshot phase's row list, the first row whose
stringified id equals the stringified temporary id (`str(row_id) ==
str(new_row_id_temp)` with a `break` after the first hit). -/
def rewriteRowTempId (tempStr : String) (newId : Nat) : List SRow → List SRow
  | [] => []
  | r :: rest =>
    if idStr r.id = tempStr then { r with id := some newId } :: rest
    else r :: rewriteRowTempId tempStr newId rest

/-- Rewrite the duplicated row's temporary id inside the first snapshot
phase matching the target phase number (the handler `break`s out of the
phase loop after processing that phase). -/
def rewriteTempId (tempStr : String) (newId : Nat) (target : Nat) : List SPhase → List SPhase
  | [] => []
  | p :: rest =>
    if p.phase = some target then { p with rows := rewriteRowTempId tempStr newId p.rows } :: rest
    else p :: rewriteTempId tempStr newId target rest

end Conductor

namespace Conductor


/-- Whether a change is a `row_move` or `row_duplicate` (the two types
whose acceptance or decline also resolves the companion `table_data`
record of the same submission). -/
def ChangeData.isMoveOrDuplicate : ChangeData → Bool
  | .row_move .. => true
  | .row_duplicate .. => true
  | _ => false

/-- After inserting the duplicate row, rewrite its temporary id to the
new durable id inside the submission's pending `table_data` companion
(accept handler, lines 2385-2419); a submission without a pending
companion is left alone. -/
def dupRewriteCompanion (s1 : StoreState) (submission_id : Nat) (tempStr : String)
    (newId target : Nat) : StoreState :=
  match findPendingTableData s1.changes submission_id with
  | none => s1
  | some td =>
    match td.data with
    | .table_data snapshot =>
      let snapshot2 := rewriteTempId tempStr newId target snapshot
      { s1 with changes := updateChangeById s1.changes td.id
                              (fun c => { c with data := ChangeData.table_data snapshot2 }) }
    | _ => s1

/-- The apply step of `accept_pending_change` (`api.py` lines 2233-2476):
one branch per `change_type`, mutating the durable store.  A missing row
for `row_update` / `row_delete` (and a missing role / script for the
corresponding types) is silently skipped; `row_duplicate` / `row_move`
return an explicit error when the source row or target phase is gone.
`table_data` matches no branch and falls through unchanged. -/
def applyChange (s : StoreState) (pc : PendingChangeRec) (now : Nat) :
    Except String StoreState :=
  match pc.data with
  | .version _ new_version => .ok { s with version := new_version }
  | .row_add phase_number phase_id row_data =>
    if truthy phase_id then
      .ok { s with
        rows := s.rows ++ [newRowFromData s.nextRowId (phase_id.getD 0) row_data now],
        nextRowId := s.nextRowId + 1 }
    else
      match s.phases.find? (fun p => p.phase_number = phase_number) with
      | some phase =>
        .ok { s with
          rows := s.rows ++ [newRowFromData s.nextRowId phase.id row_data now],
          nextRowId := s.nextRowId + 1 }
      | none =>
        .ok { s with
          phases := s.phases ++
            [{ id := s.nextPhaseId, phase_number := phase_number, is_active := false }],
          nextPhaseId := s.nextPhaseId + 1,
          rows := s.rows ++ [newRowFromData s.nextRowId s.nextPhaseId row_data now],
          nextRowId := s.nextRowId + 1 }
  | .row_update row_id _ new_data =>
    match s.rows.find? (fun r => r.id = row_id) with
    | none => .ok s
    | some _ =>
      .ok { s with rows := updateRowById s.rows row_id (fun r =>
                     { r with role := new_data.role, time := new_data.time,
                              duration := new_data.duration,
                              description := new_data.description,
                              script := new_data.script, status := new_data.status }) }
  | .row_delete row_id _ =>
    match s.rows.find? (fun r => r.id = row_id) with
    | none => .ok s
    | some _ => .ok { s with rows := s.rows.filter (fun r => r.id ≠ row_id) }
  | .role_add role =>
    match s.roles.find? (fun rn => rn = role) with
    | some _ => .ok s
    | none => .ok { s with roles := s.roles ++ [role] }
  | .role_delete role =>
    match s.roles.find? (fun rn => rn = role) with
    | none => .ok s
    | some _ => .ok { s with roles := s.roles.filter (fun rn => rn ≠ role) }
  | .script_add sd =>
    .ok { s with
      scripts := s.scripts ++
        [{ id := s.nextScriptId, name := sd.name, path := sd.path, status := sd.status }],
      nextScriptId := s.nextScriptId + 1 }
  | .script_update script_id _ new_data =>
    match s.scripts.find? (fun sc => sc.id = script_id) with
    | none => .ok s
    | some _ =>
      .ok { s with scripts := s.scripts.map (fun sc =>
        if sc.id = script_id then
          { sc with name := new_data.name, path := new_data.path, status := new_data.status }
        else sc) }
  | .script_delete script_id _ =>
    match s.scripts.find? (fun sc => sc.id = script_id) with
    | none => .ok s
    | some _ => .ok { s with scripts := s.scripts.filter (fun sc => sc.id ≠ script_id) }
  | .row_duplicate source_row_id new_row_id target_phase_number _ =>
    match s.rows.find? (fun r => r.id = source_row_id) with
    | none => .error "Source row not found"
    | some source_row =>
      match s.phases.find? (fun p => p.phase_number = target_phase_number) with
      | none => .error "Target phase not found"
      | some target_phase =>
        let new_row : RowRec :=
          { id := s.nextRowId, phase_id := target_phase.id, role := source_row.role,
            time := source_row.time, duration := source_row.duration,
            description := source_row.description, script := source_row.script,
            status := source_row.status, script_result := none, updated_at := now }
        let s1 := { s with rows := s.rows ++ [new_row], nextRowId := s.nextRowId + 1 }
        .ok (dupRewriteCompanion s1 pc.submission_id (idStr new_row_id) new_row.id
              target_phase_number)
  | .row_move row_id source_phase_number target_phase_number _ _ =>
    match s.rows.find? (fun r => r.id = row_id) with
    | none => .error "Row not found"
    | some _ =>
      match s.phases.find? (fun p => p.phase_number = target_phase_number) with
      | none => .error "Target phase not found"
      | some target_phase =>
        if source_phase_number = target_phase_number then .ok s
        else .ok { s with rows := updateRowById s.rows row_id
                            (fun r => { r with phase_id := target_phase.id,
                                               updated_at := now }) }
  | .table_data _ => .ok s

/-- Serialise a stored row back to snapshot shape (`Row.to_dict`). -/
def rowDict (r : RowRec) : SRow :=
  { id := some r.id, role := r.role, time := r.time, duration := r.duration,
    description := r.description, script := r.script, status := r.status,
    scriptResult := r.script_result }

/-- Fallback content match of a snapshot row against the target phase's
current rows (accept handler, lines 2600-2621): first row agreeing on all
six content fields, serialised back; `none` when no row matches. -/
def contentMatchRow (phase_rows : List RowRec) (row_data : SRow) : Option SRow :=
  match phase_rows.find? (fun cr =>
      cr.role = row_data.role && cr.time = row_data.time &&
      cr.duration = row_data.duration && cr.description = row_data.description &&
      cr.script = row_data.script && cr.status = row_data.status) with
  | some cr => some (rowDict cr)
  | none => none

/-- Rebuild one phase's snapshot rows against the store: resolve by id in
the phase, then by id anywhere, then by content; unresolved rows are
dropped.  Content is always taken from the store — the snapshot
contributes order only. -/
def rebuildSnapshotRows (phase_rows all_rows : List RowRec) (rows : List SRow) : List SRow :=
  rows.filterMap (fun row_data =>
    match row_data.id with
    | some rid =>
      match phase_rows.find? (fun r => r.id = rid) with
      | some db_row => some (rowDict db_row)
      | none =>
        match all_rows.find? (fun r => r.id = rid) with
        | some db_row => some (rowDict db_row)
        | none => contentMatchRow phase_rows row_data
    | none => contentMatchRow phase_rows row_data)

/-- Rows of the project: every stored row attached to one of the
project's phases (the accept handler's `all_current_rows_dict`). -/
def projectRows (s : StoreState) : List RowRec :=
  s.rows.filter (fun r => s.phases.any (fun p => p.id = r.phase_id))

/-- Rebuild the whole accepted snapshot against the store (accept
handler, lines 2546-2622): phases present in the store get their current
id / activity flag and store-resolved rows; unknown phases pass through. -/
def rebuildSnapshot (s : StoreState) (snapshot : List SPhase) : List SPhase :=
  let all_rows := projectRows s
  snapshot.map (fun phase_data =>
    match phase_data.phase with
    | some pn =>
      match s.phases.find? (fun p => p.phase_number = pn) with
      | some phase =>
        { phase_data with
            id := some phase.id, is_active := some phase.is_active,
            rows := rebuildSnapshotRows (s.rows.filter (fun r => r.phase_id = phase.id))
                      all_rows phase_data.rows }
      | none => phase_data
    | none => phase_data
  )

/-- Stamp `updated_at := base + position` over one phase's snapshot rows
(accept handler, lines 2627-2641): only rows whose id is truthy and
belongs to the project are touched. -/
def stampRows (allIds : List Nat) (base : Nat) :
    List RowRec → List SRow → Nat → List RowRec
  | rs, [], _ => rs
  | rs, row_data :: rest, position =>
    let rs1 :=
      if truthy row_data.id && (row_data.id.getD 0) ∈ allIds then
        updateRowById rs (row_data.id.getD 0)
          (fun r => { r with updated_at := base + position })
      else rs
    stampRows allIds base rs1 rest (position + 1)

/-- Rewrite the store's ordering timestamps so that row display order
matches the accepted snapshot (base timestamp plus ordinal offsets). -/
def stampSnapshot (s : StoreState) (snapshot : List SPhase) (base : Nat) : StoreState :=
  let allIds := (projectRows s).map (fun r => r.id)
  { s with rows := snapshot.foldl (fun rs phase_data =>
      match phase_data.phase with
      | some pn =>
        if s.phases.any (fun p => p.phase_number = pn) then
          stampRows allIds base rs phase_data.rows 0
        else rs
      | none => rs) s.rows }

/-- Review bookkeeping on one change (`pending_change.status = ...` plus
the `if reviewed_by:` block): the status transition happens
unconditionally, the reviewer fields only for a non-empty name. -/
def reviewFields (pc : PendingChangeRec) (st : CStatus) (reviewed_by : String) (now : Nat) :
    PendingChangeRec :=
  let pc1 := { pc with status := st }
  if reviewed_by = "" then pc1
  else { pc1 with reviewed_by := some reviewed_by, reviewed_at := some now }

/-- Count of still-pending non-internal changes of a submission. -/
def remainingPending (cs : List PendingChangeRec) (submission_id : Nat) : Nat :=
  (cs.filter (fun c =>
    c.submission_id = submission_id && c.status = CStatus.pending &&
    !c.data.isTableData)).length

/-- Result payload of a successful accept / decline. -/
structure AcceptResult where
  remaining_pending : Nat
  all_processed : Bool
  table_data : Option (List SPhase) := none
  deriving DecidableEq, Repr

/-- Outcome of an accept / decline request. -/
inductive AcceptOutcome
  | notFound
  | applyError (msg : String)
  | ok (result : AcceptResult)
  deriving DecidableEq, Repr

/-- Whether the request returned HTTP 200. -/
def AcceptOutcome.isOk : AcceptOutcome → Bool
  | .ok _ => true
  | _ => false

/-- The post-apply stage of `accept_pending_change` (`api.py` lines
2478-2665): mark the change accepted (reviewer fields only when a name
was sent), and for `row_move` / `row_duplicate` resolve the companion
`table_data` record: mark it accepted, rebuild its snapshot from current
store content, and rewrite the ordering timestamps. -/
def acceptAfterApply (s1 : StoreState) (pc : PendingChangeRec) (reviewed_by : String)
    (now : Nat) : StoreState × AcceptOutcome :=
  let s2 := { s1 with changes := updateChangeById s1.changes pc.id
                           (fun c => reviewFields c .accepted reviewed_by now) }
  if pc.data.isMoveOrDuplicate then
    match findPendingTableData s2.changes pc.submission_id with
    | none =>
      let rp := remainingPending s2.changes pc.submission_id
      (s2, .ok { remaining_pending := rp, all_processed := rp == 0, table_data := none })
    | some td =>
      let s3 := { s2 with changes := updateChangeById s2.changes td.id
                               (fun c => reviewFields c .accepted reviewed_by now) }
      match td.data with
      | .table_data snapshot =>
        if snapshot.isEmpty then
          let rp := remainingPending s3.changes pc.submission_id
          (s3, .ok { remaining_pending := rp, all_processed := rp == 0,
                     table_data := some snapshot })
        else
          let rebuilt := rebuildSnapshot s3 snapshot
          let s4 := stampSnapshot s3 rebuilt now
          let rp := remainingPending s4.changes pc.submission_id
          (s4, .ok { remaining_pending := rp, all_processed := rp == 0,
                     table_data := some rebuilt })
      | _ =>
        let rp := remainingPending s3.changes pc.submission_id
        (s3, .ok { remaining_pending := rp, all_processed := rp == 0, table_data := none })
  else
    let rp := remainingPending s2.changes pc.submission_id
    (s2, .ok { remaining_pending := rp, all_processed := rp == 0, table_data := none })

/-- Embedding of `accept_pending_change` (`api.py` lines 2217-2669):
find the pending change, apply it (early errors leave the store
untouched), then run the post-apply review stage. -/
def accept_pending_change (s : StoreState) (change_id : Nat) (reviewed_by : String)
    (now : Nat) : StoreState × AcceptOutcome :=
  match findPendingChange s change_id with
  | none => (s, .notFound)
  | some pc =>
    match applyChange s pc now with
    | .error msg => (s, .applyError msg)
    | .ok s1 => acceptAfterApply s1 pc reviewed_by now

/-- Embedding of `decline_pending_change` (`api.py` lines 2672-2735):
mark declined (reviewer fields only for a non-empty name) and decline the
companion `table_data` record for `row_move` / `row_duplicate`. -/
def decline_pending_change (s : StoreState) (change_id : Nat) (reviewed_by : String)
    (now : Nat) : StoreState × AcceptOutcome :=
  match findPendingChange s change_id with
  | none => (s, .notFound)
  | some pc =>
    let s1 := { s with changes := updateChangeById s.changes pc.id
                           (fun c => reviewFields c .declined reviewed_by now) }
    let s2 :=
      if pc.data.isMoveOrDuplicate then
        match findPendingTableData s1.changes pc.submission_id with
        | some td => { s1 with changes := updateChangeById s1.changes td.id
                                   (fun c => reviewFields c .declined reviewed_by now) }
        | none => s1
      else s1
    let rp := remainingPending s2.changes pc.submission_id
    (s2, .ok { remaining_pending := rp, all_processed := rp == 0, table_data := none })

end Conductor

namespace Conductor

/-- Stable insertion of a log entry into a timestamp-descending list. -/
def insertByTimestampDesc (x : ActionLogRec) : List ActionLogRec → List ActionLogRec
  | [] => [x]
  | y :: ys =>
    if x.timestamp ≤ y.timestamp then y :: insertByTimestampDesc x ys
    else x :: y :: ys

/-- Order query results by timestamp descending (most recent first),
mirroring `order_by(ActionLog.timestamp.desc())`. -/
def sortByTimestampDesc : List ActionLogRec → List ActionLogRec
  | [] => []
  | x :: xs => insertByTimestampDesc x (sortByTimestampDesc xs)

/-- An optional string filter is applied only when the parameter is
present and non-empty (Python truthiness of the query argument). -/
def optStrFilter (o : Option String) (f : ActionLogRec → String)
    (q : List ActionLogRec) : List ActionLogRec :=
  match o with
  | some v => if v = "" then q else q.filter (fun l => f l = v)
  | none => q

/-- The optional `start_date` lower-bound filter. -/
def optStartFilter (o : Option Nat) (q : List ActionLogRec) : List ActionLogRec :=
  match o with
  | some t => q.filter (fun l => t ≤ l.timestamp)
  | none => q

/-- The optional `end_date` upper-bound filter. -/
def optEndFilter (o : Option Nat) (q : List ActionLogRec) : List ActionLogRec :=
  match o with
  | some t => q.filter (fun l => l.timestamp ≤ t)
  | none => q

/-- The epoch-scoped audit-log query of `get_action_logs` (`api.py` lines
2774-2798): filter to one reset epoch, apply the optional action-type /
user / date-range filters, and order by timestamp descending. -/
def action_logs_query (logs : List ActionLogRec) (epoch : Nat)
    (action_type user_name : Option String) (start_date end_date : Option Nat) :
    List ActionLogRec :=
  let q := logs.filter (fun l => l.reset_epoch = epoch)
  let q := optStrFilter action_type (fun l => l.action_type) q
  let q := optStrFilter user_name (fun l => l.user_name) q
  let q := optStartFilter start_date q
  let q := optEndFilter end_date q
  sortByTimestampDesc q

/-- Embedding of the `get_action_logs` endpoint: manager check, then the
epoch-scoped query at the project's current `reset_epoch`. -/
def get_action_logs (s : StoreState) (user_role : String)
    (action_type user_name : Option String) (start_date end_date : Option Nat) :
    Except String (List ActionLogRec) :=
  if user_role = "" ∨ user_role ≠ s.manager_role then
    .error "Only managers can view action logs"
  else
    .ok (action_logs_query s.logs s.reset_epoch action_type user_name start_date end_date)

/-- The audit entry appended by `ActionLogger.log_reset_statuses`. -/
def log_reset_statuses (user_name user_role : String) (reset_epoch now : Nat) :
    ActionLogRec :=
  { user_name := user_name, user_role := user_role, action_type := "reset_statuses",
    reset_epoch := reset_epoch, timestamp := now }

/-- Embedding of `reset_all_statuses` (`api.py` lines 3265-3307): manager
check, increment `reset_epoch`, set every project row's status to `N/A`
(touching `updated_at`), and append one reset entry tagged with the new
epoch.  Returns `(rows_reset, new_epoch)` on success. -/
def reset_all_statuses (s : StoreState) (user_name user_role : String) (now : Nat) :
    StoreState × Except String (Nat × Nat) :=
  if user_role = "" ∨ user_role ≠ s.manager_role then
    (s, .error "Only managers can reset statuses")
  else
    let new_epoch := s.reset_epoch + 1
    let inProject := fun (r : RowRec) => s.phases.any (fun p => p.id = r.phase_id)
    let rows2 := s.rows.map (fun r =>
      if inProject r then { r with status := "N/A", updated_at := now } else r)
    let rows_count := (s.rows.filter inProject).length
    ({ s with reset_epoch := new_epoch, rows := rows2,
              logs := s.logs ++ [log_reset_statuses user_name user_role new_epoch now] },
     .ok (rows_count, new_epoch))

/-- Membership is preserved by the descending insertion. -/
theorem mem_insertByTimestampDesc (x a : ActionLogRec) (l : List ActionLogRec) :
    a ∈ insertByTimestampDesc x l ↔ a = x ∨ a ∈ l := by
  induction l with
  | nil => simp [insertByTimestampDesc]
  | cons y ys ih =>
    simp only [insertByTimestampDesc]
    split
    · simp only [List.mem_cons, ih]
      tauto
    · simp only [List.mem_cons]

/-- Membership is preserved by the timestamp-descending sort. -/
theorem mem_sortByTimestampDesc (a : ActionLogRec) (l : List ActionLogRec) :
    a ∈ sortByTimestampDesc l ↔ a ∈ l := by
  induction l with
  | nil => simp [sortByTimestampDesc]
  | cons x xs ih =>
    simp [sortByTimestampDesc, mem_insertByTimestampDesc, ih]

end Conductor

namespace Conductor

/-- Every result of an optional string filter comes from the input. -/
theorem optStrFilter_subset (o : Option String) (f : ActionLogRec → String)
    (q : List ActionLogRec) (a : ActionLogRec) (h : a ∈ optStrFilter o f q) : a ∈ q := by
  cases o with
  | none => exact h
  | some v =>
    simp only [optStrFilter] at h
    split at h
    · exact h
    · exact (List.mem_filter.mp h).1

/-- Every result of the start-date filter comes from the input. -/
theorem optStartFilter_subset (o : Option Nat) (q : List ActionLogRec)
    (a : ActionLogRec) (h : a ∈ optStartFilter o q) : a ∈ q := by
  cases o with
  | none => exact h
  | some t => exact (List.mem_filter.mp h).1

/-- Every result of the end-date filter comes from the input. -/
theorem optEndFilter_subset (o : Option Nat) (q : List ActionLogRec)
    (a : ActionLogRec) (h : a ∈ optEndFilter o q) : a ∈ q := by
  cases o with
  | none => exact h
  | some t => exact (List.mem_filter.mp h).1

/-- Every entry returned by the epoch-scoped query carries that epoch. -/
theorem action_logs_query_epoch (logs : List ActionLogRec) (epoch : Nat)
    (aty un : Option String) (sd ed : Option Nat) (l : ActionLogRec)
    (h : l ∈ action_logs_query logs epoch aty un sd ed) : l.reset_epoch = epoch := by
  simp only [action_logs_query] at h
  rw [mem_sortByTimestampDesc] at h
  have h1 := optEndFilter_subset _ _ _ h
  have h2 := optStartFilter_subset _ _ _ h1
  have h3 := optStrFilter_subset _ _ _ _ h2
  have h4 := optStrFilter_subset _ _ _ _ h3
  have h5 := List.mem_filter.mp h4
  exact of_decide_eq_true h5.2

end Conductor

/-- C7: audit entries written before a `resetStatuses` call (tagged with
the then-current epoch) are excluded from every `getActionLogs` query
scoped to the new epoch — which is what the endpoint itself runs after
the reset — and remain retrievable by the same query scoped to the old
epoch, because the reset increments the epoch without deleting or
retagging any stored entry. -/
theorem C7_reset_epoch_isolation (s s2 : StoreState) (entry : ActionLogRec)
    (actor mgr : String) (now : Nat)
    (hmem : entry ∈ s.logs)
    (hepoch : entry.reset_epoch = s.reset_epoch)
    (hmgr : mgr = s.manager_role) (hne : s.manager_role ≠ "")
    (hs2 : s2 = (reset_all_statuses s actor mgr now).1) :
    s2.reset_epoch = s.reset_epoch + 1 ∧
    (∀ aty un sd ed, get_action_logs s2 mgr aty un sd ed =
        Except.ok (action_logs_query s2.logs s2.reset_epoch aty un sd ed)) ∧
    (∀ aty un sd ed, entry ∉ action_logs_query s2.logs s2.reset_epoch aty un sd ed) ∧
    entry ∈ action_logs_query s2.logs s.reset_epoch none none none none := by
  subst hmgr
  have hcond : ¬(s.manager_role = "" ∨ s.manager_role ≠ s.manager_role) := by
    simp [hne]
  have hs2' : s2 = { s with
      reset_epoch := s.reset_epoch + 1,
      rows := s.rows.map (fun r =>
        if s.phases.any (fun p => p.id = r.phase_id) then
          { r with status := "N/A", updated_at := now }
        else r),
      logs := s.logs ++
        [log_reset_statuses actor s.manager_role (s.reset_epoch + 1) now] } := by
    rw [hs2]
    unfold reset_all_statuses
    rw [if_neg hcond]
  constructor
  · rw [hs2']
  constructor
  · intro aty un sd ed
    rw [get_action_logs, if_neg (by rw [hs2']; simpa using hne)]
  constructor
  · intro aty un sd ed hin
    have := action_logs_query_epoch _ _ _ _ _ _ _ hin
    rw [hepoch] at this
    rw [hs2'] at this
    simp at this
  · have hepoch2 : entry.reset_epoch = s.reset_epoch := hepoch
    simp only [action_logs_query, optStrFilter, optStartFilter, optEndFilter]
    rw [mem_sortByTimestampDesc, List.mem_filter]
    constructor
    · rw [hs2']
      exact List.mem_append_left _ hmem
    · simpa using hepoch2

/-- C7 witness: one pre-reset entry at epoch 0 disappears from the
post-reset (epoch 1) query and stays visible under epoch 0. -/
theorem C7_reset_epoch_isolation_witness :
    ((reset_all_statuses
        { version := "v1", manager_role := "Mgr",
          logs := [{ user_name := "u", user_role := "ops",
                     action_type := "row_status_change", reset_epoch := 0,
                     timestamp := 3 }] }
        "boss" "Mgr" 9).1).reset_epoch = 1 ∧
    ({ user_name := "u", user_role := "ops", action_type := "row_status_change",
       reset_epoch := 0, timestamp := 3 } : ActionLogRec) ∉
      action_logs_query
        ((reset_all_statuses
          { version := "v1", manager_role := "Mgr",
            logs := [{ user_name := "u", user_role := "ops",
                       action_type := "row_status_change", reset_epoch := 0,
                       timestamp := 3 }] }
          "boss" "Mgr" 9).1).logs 1 none none none none ∧
    ({ user_name := "u", user_role := "ops", action_type := "row_status_change",
       reset_epoch := 0, timestamp := 3 } : ActionLogRec) ∈
      action_logs_query
        ((reset_all_statuses
          { version := "v1", manager_role := "Mgr",
            logs := [{ user_name := "u", user_role := "ops",
                       action_type := "row_status_change", reset_epoch := 0,
                       timestamp := 3 }] }
          "boss" "Mgr" 9).1).logs 0 none none none none := by
  have h := C7_reset_epoch_isolation
    { version := "v1", manager_role := "Mgr",
      logs := [{ user_name := "u", user_role := "ops",
                 action_type := "row_status_change", reset_epoch := 0,
                 timestamp := 3 }] }
    ((reset_all_statuses
        { version := "v1", manager_role := "Mgr",
          logs := [{ user_name := "u", user_role := "ops",
                     action_type := "row_status_change", reset_epoch := 0,
                     timestamp := 3 }] }
        "boss" "Mgr" 9).1)
    { user_name := "u", user_role := "ops", action_type := "row_status_change",
      reset_epoch := 0, timestamp := 3 }
    "boss" "Mgr" 9
    (by decide) (by decide) (by decide) (by decide) rfl
  refine ⟨h.1, ?_, ?_⟩
  · have := h.2.2.1 none none none none
    have hre : ((reset_all_statuses
        { version := "v1", manager_role := "Mgr",
          logs := [{ user_name := "u", user_role := "ops",
                     action_type := "row_status_change", reset_epoch := 0,
                     timestamp := 3 }] }
        "boss" "Mgr" 9).1).reset_epoch = 1 := h.1
    rw [hre] at this
    exact this
  · exact h.2.2.2

namespace Conductor

/-- The companion rewrite after a duplicate insertion never writes to the
audit log. -/
theorem dupRewriteCompanion_logs (s1 : StoreState) (submission_id : Nat)
    (tempStr : String) (newId target : Nat) :
    (dupRewriteCompanion s1 submission_id tempStr newId target).logs = s1.logs := by
  unfold dupRewriteCompanion
  repeat' split
  all_goals rfl

/-- The apply step never writes to the audit log: no branch of
`accept_pending_change`'s apply switch calls `ActionLogger`. -/
theorem applyChange_logs (s : StoreState) (pc : PendingChangeRec) (now : Nat)
    (s2 : StoreState) (h : applyChange s pc now = .ok s2) : s2.logs = s.logs := by
  unfold applyChange at h
  repeat' split at h
  all_goals cases h
  all_goals try rfl
  all_goals rw [dupRewriteCompanion_logs]

/-- The apply step touches the pending-change table only in the
`row_duplicate` branch, where it rewrites the data payload of the
submission's pending `table_data` companion (an id-preserving update of
an internal record); the reviewed change itself is never an internal
record when that happens. -/
theorem applyChange_changes (s : StoreState) (pc : PendingChangeRec) (now : Nat)
    (s2 : StoreState) (h : applyChange s pc now = .ok s2) :
    s2.changes = s.changes ∨
    (∃ td snapshot2, td ∈ s.changes ∧ td.data.isTableData = true ∧
      pc.data.isTableData = false ∧
      s2.changes = updateChangeById s.changes td.id
        (fun c => { c with data := ChangeData.table_data snapshot2 })) := by
  unfold applyChange at h
  repeat' split at h
  all_goals cases h
  all_goals try (left; rfl)
  rename_i hdup h1 h2 h3 h4 h5 h6
  unfold dupRewriteCompanion
  split
  · left; rfl
  next td hfind =>
    split
    next snap hsnap =>
      right
      refine ⟨td, _, List.mem_of_find?_eq_some hfind, ?_, ?_, rfl⟩
      · have h2 := List.find?_some hfind
        simp only [Bool.and_eq_true, decide_eq_true_eq] at h2
        exact h2.1.2
      · rw [hdup]
        rfl
    · left; rfl

/-- `updateChangeById` maps a member to its (possibly updated) image. -/
theorem mem_updateChangeById (l : List PendingChangeRec) (cid : Nat)
    (f : PendingChangeRec → PendingChangeRec) (a : PendingChangeRec) (h : a ∈ l) :
    (if a.id = cid then f a else a) ∈ updateChangeById l cid f :=
  List.mem_map_of_mem _ h

/-- `updateChangeById` with an id-preserving update keeps the id column. -/
theorem updateChangeById_ids (l : List PendingChangeRec) (cid : Nat)
    (f : PendingChangeRec → PendingChangeRec) (hf : ∀ c, (f c).id = c.id) :
    (updateChangeById l cid f).map (fun c => c.id) = l.map (fun c => c.id) := by
  unfold updateChangeById
  rw [List.map_map]
  apply List.map_congr_left
  intro a _
  by_cases hid : a.id = cid <;> simp [hid, hf]

/-- Review bookkeeping never changes a record's id. -/
theorem reviewFields_id (pc : PendingChangeRec) (st : CStatus) (rb : String) (now : Nat) :
    (reviewFields pc st rb now).id = pc.id := by
  unfold reviewFields
  split <;> rfl

/-- Review bookkeeping written out field by field. -/
theorem reviewFields_eq (pc : PendingChangeRec) (st : CStatus) (rb : String) (now : Nat) :
    reviewFields pc st rb now =
    { pc with
        status := st,
        reviewed_by := if rb = "" then pc.reviewed_by else some rb,
        reviewed_at := if rb = "" then pc.reviewed_at else some now } := by
  unfold reviewFields
  split <;> simp_all

end Conductor

namespace Conductor

/-- A pending `table_data` companion found in the change table is a
member of it and is an internal record. -/
theorem findPendingTableData_mem (cs : List PendingChangeRec) (sid : Nat)
    (td : PendingChangeRec) (h : findPendingTableData cs sid = some td) :
    td ∈ cs ∧ td.data.isTableData = true := by
  refine ⟨List.mem_of_find?_eq_some h, ?_⟩
  have := List.find?_some h
  simp only [Bool.and_eq_true, decide_eq_true_eq] at this
  exact this.1.2

/-- A record whose primary key differs from the updated key is untouched
by `updateChangeById`. -/
theorem updateChangeById_mem_of_ne (l : List PendingChangeRec) (cid : Nat)
    (f : PendingChangeRec → PendingChangeRec) (a : PendingChangeRec)
    (hmem : a ∈ l) (hne : a.id ≠ cid) : a ∈ updateChangeById l cid f := by
  have := mem_updateChangeById l cid f a hmem
  rwa [if_neg hne] at this

/-- The record with the updated primary key is mapped to its image. -/
theorem updateChangeById_mem_self (l : List PendingChangeRec)
    (f : PendingChangeRec → PendingChangeRec) (a : PendingChangeRec)
    (hmem : a ∈ l) : f a ∈ updateChangeById l a.id f := by
  have := mem_updateChangeById l a.id f a hmem
  rwa [if_pos rfl] at this

/-- Review bookkeeping never changes a record's payload. -/
theorem reviewFields_data (pc : PendingChangeRec) (st : CStatus) (rb : String) (now : Nat) :
    (reviewFields pc st rb now).data = pc.data := by
  unfold reviewFields
  split <;> rfl

/-- The timestamp-rewrite stage touches only rows. -/
theorem stampSnapshot_changes (s : StoreState) (snapshot : List SPhase) (base : Nat) :
    (stampSnapshot s snapshot base).changes = s.changes := rfl

/-- A move or duplicate change is never the internal record. -/
theorem isMoveOrDup_not_tableData (d : ChangeData)
    (h : d.isMoveOrDuplicate = true) : d.isTableData = false := by
  cases d <;> first | rfl | exact absurd h (by simp [ChangeData.isMoveOrDuplicate])

/-- The post-apply stage marks the reviewed change accepted and keeps it
in the change table, whatever its type. -/
theorem acceptAfterApply_mem (s1 : StoreState) (pc : PendingChangeRec)
    (rb : String) (now : Nat)
    (hmem : pc ∈ s1.changes)
    (hnd : (s1.changes.map (fun c => c.id)).Nodup) :
    reviewFields pc .accepted rb now ∈ (acceptAfterApply s1 pc rb now).1.changes := by
  have hrpc : reviewFields pc .accepted rb now ∈
      updateChangeById s1.changes pc.id (fun c => reviewFields c .accepted rb now) :=
    updateChangeById_mem_self s1.changes _ pc hmem
  have hnd2 : ((updateChangeById s1.changes pc.id
      (fun c => reviewFields c .accepted rb now)).map (fun c => c.id)).Nodup := by
    rw [updateChangeById_ids _ _ _ (fun c => reviewFields_id c _ rb now)]
    exact hnd
  unfold acceptAfterApply
  split
  next hmove =>
    dsimp only []
    split
    · exact hrpc
    next td hfind =>
      have htd := findPendingTableData_mem _ _ _ hfind
      have hne : (reviewFields pc .accepted rb now).id ≠ td.id := by
        intro heq
        have heqel := List.inj_on_of_nodup_map hnd2 hrpc htd.1 heq
        have hd1 : td.data.isTableData = false := by
          rw [← heqel, reviewFields_data]
          exact isMoveOrDup_not_tableData _ hmove
        rw [htd.2] at hd1
        cases hd1
      have hrpc3 : reviewFields pc .accepted rb now ∈
          updateChangeById (updateChangeById s1.changes pc.id
              (fun c => reviewFields c .accepted rb now)) td.id
            (fun c => reviewFields c .accepted rb now) :=
        updateChangeById_mem_of_ne _ _ _ _ hrpc hne
      split
      · split
        · exact hrpc3
        · exact hrpc3
      · exact hrpc3
  · exact hrpc

end Conductor

namespace Conductor

/-- The post-apply review stage never writes to the audit log. -/
theorem acceptAfterApply_logs (s1 : StoreState) (pc : PendingChangeRec)
    (rb : String) (now : Nat) :
    (acceptAfterApply s1 pc rb now).1.logs = s1.logs := by
  unfold acceptAfterApply
  dsimp only []
  repeat' split
  all_goals rfl

/-- Reduction of `accept_pending_change` once the lookup and the apply
step are known. -/
theorem accept_pending_change_found (s : StoreState) (cid : Nat) (rb : String)
    (now : Nat) (pc : PendingChangeRec) (s1 : StoreState)
    (hfind : findPendingChange s cid = some pc)
    (happly : applyChange s pc now = .ok s1) :
    accept_pending_change s cid rb now = acceptAfterApply s1 pc rb now := by
  unfold accept_pending_change
  simp only [hfind, happly]

/-- Reduction of `accept_pending_change` when the apply step errors. -/
theorem accept_pending_change_error (s : StoreState) (cid : Nat) (rb : String)
    (now : Nat) (pc : PendingChangeRec) (msg : String)
    (hfind : findPendingChange s cid = some pc)
    (happly : applyChange s pc now = .error msg) :
    accept_pending_change s cid rb now = (s, .applyError msg) := by
  unfold accept_pending_change
  simp only [hfind, happly]

end Conductor

/-- C1 counterexample: accepting a pending `version` change succeeds and
applies the mutation, yet appends no `AuditLogEntry` at all — in
particular none tagged with the project's current `reset_epoch`. -/
theorem C1_accept_logs_counterexample :
    ((accept_pending_change
        { version := "v1", manager_role := "Mgr",
          changes := [{ id := 1, submission_id := 7, submitted_by := "alice",
                        submitted_by_role := "ops",
                        data := .version "v1" "v2" }] }
        1 "boss" 10).2).isOk = true ∧
    (accept_pending_change
        { version := "v1", manager_role := "Mgr",
          changes := [{ id := 1, submission_id := 7, submitted_by := "alice",
                        submitted_by_role := "ops",
                        data := .version "v1" "v2" }] }
        1 "boss" 10).1.version = "v2" ∧
    (accept_pending_change
        { version := "v1", manager_role := "Mgr",
          changes := [{ id := 1, submission_id := 7, submitted_by := "alice",
                        submitted_by_role := "ops",
                        data := .version "v1" "v2" }] }
        1 "boss" 10).1.logs = [] :=
  ⟨rfl, rfl, rfl⟩

/-- C1 amended: accepting a pending change — whatever its type — appends
no `AuditLogEntry`: `accept_pending_change` leaves the audit log exactly
as it was.  Audit entries are appended only by the direct manager
endpoints. -/
theorem C1_accept_appends_no_audit (s : StoreState) (change_id : Nat)
    (reviewed_by : String) (now : Nat) :
    (accept_pending_change s change_id reviewed_by now).1.logs = s.logs := by
  unfold accept_pending_change
  split
  · rfl
  next pc hfind =>
    split
    · rfl
    next s1 happly =>
      rw [acceptAfterApply_logs]
      exact applyChange_logs _ _ _ _ happly

namespace Conductor

/-- A change found by the pending lookup is a member of the table. -/
theorem findPendingChange_mem (s : StoreState) (cid : Nat) (pc : PendingChangeRec)
    (h : findPendingChange s cid = some pc) : pc ∈ s.changes :=
  List.mem_of_find?_eq_some h

/-- Distinct members of a change table with `Nodup` primary keys have
distinct keys when their payloads differ in kind. -/
theorem change_id_ne_of_data_ne (cs : List PendingChangeRec)
    (hnd : (cs.map (fun c => c.id)).Nodup) (a b : PendingChangeRec)
    (ha : a ∈ cs) (hb : b ∈ cs)
    (hint : a.data.isTableData = false) (hint2 : b.data.isTableData = true) :
    a.id ≠ b.id := by
  intro heq
  have := List.inj_on_of_nodup_map hnd ha hb heq
  rw [this, hint2] at hint
  cases hint

end Conductor

/-- C5 counterexample: an accept request with an empty `reviewed_by` is
not rejected — the change is applied (the project version mutates) and
transitioned to accepted, with `reviewed_by` / `reviewed_at` left unset. -/
theorem C5_missing_reviewer_counterexample :
    ((accept_pending_change
        { version := "v1", manager_role := "Mgr",
          changes := [{ id := 1, submission_id := 7, submitted_by := "alice",
                        submitted_by_role := "ops",
                        data := .version "v1" "v2" }] }
        1 "" 10).2).isOk = true ∧
    (accept_pending_change
        { version := "v1", manager_role := "Mgr",
          changes := [{ id := 1, submission_id := 7, submitted_by := "alice",
                        submitted_by_role := "ops",
                        data := .version "v1" "v2" }] }
        1 "" 10).1.version = "v2" ∧
    (accept_pending_change
        { version := "v1", manager_role := "Mgr",
          changes := [{ id := 1, submission_id := 7, submitted_by := "alice",
                        submitted_by_role := "ops",
                        data := .version "v1" "v2" }] }
        1 "" 10).1.changes =
      [{ id := 1, submission_id := 7, submitted_by := "alice",
         submitted_by_role := "ops", data := .version "v1" "v2",
         status := .accepted, reviewed_by := none, reviewed_at := none }] :=
  ⟨rfl, rfl, rfl⟩

/-- C5 amended: neither accept nor decline requires a reviewer name.
The found change is transitioned (and, for accept, applied) regardless;
`reviewed_by` / `reviewed_at` are set exactly when a non-empty name is
supplied, and are left untouched when the name is empty. -/
theorem C5_reviewer_not_required :
    (∀ (s : StoreState) (cid : Nat) (pc : PendingChangeRec) (rb : String) (now : Nat),
      ((s.changes.map (fun c => c.id)).Nodup) →
      findPendingChange s cid = some pc →
      (accept_pending_change s cid rb now).2.isOk = true →
      { pc with status := CStatus.accepted,
                reviewed_by := if rb = "" then pc.reviewed_by else some rb,
                reviewed_at := if rb = "" then pc.reviewed_at else some now } ∈
        (accept_pending_change s cid rb now).1.changes) ∧
    (∀ (s : StoreState) (cid : Nat) (pc : PendingChangeRec) (rb : String) (now : Nat),
      ((s.changes.map (fun c => c.id)).Nodup) →
      findPendingChange s cid = some pc →
      { pc with status := CStatus.declined,
                reviewed_by := if rb = "" then pc.reviewed_by else some rb,
                reviewed_at := if rb = "" then pc.reviewed_at else some now } ∈
        (decline_pending_change s cid rb now).1.changes) := by
  constructor
  · intro s cid pc rb now hnd hfind hok
    have hpcmem : pc ∈ s.changes := findPendingChange_mem s cid pc hfind
    cases happ : applyChange s pc now with
    | error msg =>
      rw [accept_pending_change_error s cid rb now pc msg hfind happ] at hok
      cases hok
    | ok s1 =>
      rw [accept_pending_change_found s cid rb now pc s1 hfind happ]
      rw [← reviewFields_eq]
      rcases applyChange_changes s pc now s1 happ with hc | ⟨td, snap2, htdmem, htdint, hpcnot, hc⟩
      · exact acceptAfterApply_mem s1 pc rb now (by rw [hc]; exact hpcmem) (by rw [hc]; exact hnd)
      · have hne : pc.id ≠ td.id :=
          change_id_ne_of_data_ne s.changes hnd pc td hpcmem htdmem hpcnot htdint
        refine acceptAfterApply_mem s1 pc rb now ?_ ?_
        · rw [hc]
          exact updateChangeById_mem_of_ne _ _ _ _ hpcmem hne
        · rw [hc, updateChangeById_ids s.changes td.id
              (fun c => { c with data := ChangeData.table_data snap2 }) (fun c => rfl)]
          exact hnd
  · intro s cid pc rb now hnd hfind
    have hpcmem : pc ∈ s.changes := findPendingChange_mem s cid pc hfind
    rw [← reviewFields_eq]
    unfold decline_pending_change
    simp only [hfind]
    have hrpc : reviewFields pc .declined rb now ∈
        updateChangeById s.changes pc.id (fun c => reviewFields c .declined rb now) :=
      updateChangeById_mem_self s.changes _ pc hpcmem
    have hnd1 : ((updateChangeById s.changes pc.id
        (fun c => reviewFields c .declined rb now)).map (fun c => c.id)).Nodup := by
      rw [updateChangeById_ids _ _ _ (fun c => reviewFields_id c _ rb now)]
      exact hnd
    split
    next hmove =>
      split
      next td hfindtd =>
        have htd := findPendingTableData_mem _ _ _ hfindtd
        have hne : (reviewFields pc .declined rb now).id ≠ td.id := by
          apply change_id_ne_of_data_ne _ hnd1 _ _ hrpc htd.1
          · rw [reviewFields_data]
            exact isMoveOrDup_not_tableData _ hmove
          · exact htd.2
        exact updateChangeById_mem_of_ne _ _ _ _ hrpc hne
      · exact hrpc
    · exact hrpc

/-- C5 witness: a concrete accept with a reviewer and a concrete
decline without one. -/
theorem C5_reviewer_not_required_witness :
    ({ id := 1, submission_id := 7, submitted_by := "alice",
       submitted_by_role := "ops", data := ChangeData.version "v1" "v2",
       status := CStatus.accepted, reviewed_by := some "boss",
       reviewed_at := some 10 } : PendingChangeRec) ∈
      (accept_pending_change
        { version := "v1", manager_role := "Mgr",
          changes := [{ id := 1, submission_id := 7, submitted_by := "alice",
                        submitted_by_role := "ops",
                        data := .version "v1" "v2" }] }
        1 "boss" 10).1.changes ∧
    ({ id := 1, submission_id := 7, submitted_by := "alice",
       submitted_by_role := "ops", data := ChangeData.version "v1" "v2",
       status := CStatus.declined, reviewed_by := none,
       reviewed_at := none } : PendingChangeRec) ∈
      (decline_pending_change
        { version := "v1", manager_role := "Mgr",
          changes := [{ id := 1, submission_id := 7, submitted_by := "alice",
                        submitted_by_role := "ops",
                        data := .version "v1" "v2" }] }
        1 "" 10).1.changes := by
  constructor
  · have h := C5_reviewer_not_required.1
      { version := "v1", manager_role := "Mgr",
        changes := [{ id := 1, submission_id := 7, submitted_by := "alice",
                      submitted_by_role := "ops",
                      data := .version "v1" "v2" }] }
      1 { id := 1, submission_id := 7, submitted_by := "alice",
          submitted_by_role := "ops", data := .version "v1" "v2" }
      "boss" 10 (by decide) rfl rfl
    simpa using h
  · have h := C5_reviewer_not_required.2
      { version := "v1", manager_role := "Mgr",
        changes := [{ id := 1, submission_id := 7, submitted_by := "alice",
                      submitted_by_role := "ops",
                      data := .version "v1" "v2" }] }
      1 { id := 1, submission_id := 7, submitted_by := "alice",
          submitted_by_role := "ops", data := .version "v1" "v2" }
      "" 10 (by decide) rfl
    simpa using h

/-- C8: accepting a `row_update` or `row_delete` whose row id no longer
exists in the store is a silent no-op: the request succeeds (no error to
the caller), the durable store is unchanged by the apply, and the change
is still transitioned to accepted. -/
theorem C8_stale_row_apply_noop (s : StoreState) (cid : Nat) (pc : PendingChangeRec)
    (rb : String) (now : Nat) (rid : Nat)
    (hnd : (s.changes.map (fun c => c.id)).Nodup)
    (hfind : findPendingChange s cid = some pc)
    (hdata : (∃ od nd, pc.data = ChangeData.row_update rid od nd) ∨
             (∃ rd, pc.data = ChangeData.row_delete rid rd))
    (hmiss : s.rows.find? (fun r => r.id = rid) = none) :
    (accept_pending_change s cid rb now).2.isOk = true ∧
    (accept_pending_change s cid rb now).1.rows = s.rows ∧
    (accept_pending_change s cid rb now).1.phases = s.phases ∧
    (accept_pending_change s cid rb now).1.version = s.version ∧
    reviewFields pc .accepted rb now ∈ (accept_pending_change s cid rb now).1.changes := by
  have happly : applyChange s pc now = .ok s := by
    unfold applyChange
    rcases hdata with ⟨od, nd, hd⟩ | ⟨rd, hd⟩ <;> simp only [hd, hmiss]
  have hmove : pc.data.isMoveOrDuplicate = false := by
    rcases hdata with ⟨od, nd, hd⟩ | ⟨rd, hd⟩ <;> rw [hd] <;> rfl
  have hred := accept_pending_change_found s cid rb now pc s hfind happly
  rw [hred]
  refine ⟨?_, ?_, ?_, ?_, ?_⟩
  · simp [acceptAfterApply, hmove, AcceptOutcome.isOk]
  · simp [acceptAfterApply, hmove]
  · simp [acceptAfterApply, hmove]
  · simp [acceptAfterApply, hmove]
  · exact acceptAfterApply_mem s pc rb now (findPendingChange_mem s cid pc hfind) hnd

/-- C8 witness: a concrete `row_update` aimed at a deleted row. -/
theorem C8_stale_row_apply_noop_witness :
    ((accept_pending_change
        { version := "v1", manager_role := "Mgr",
          rows := [],
          changes := [{ id := 1, submission_id := 7, submitted_by := "alice",
                        submitted_by_role := "ops",
                        data := .row_update 5 {} { role := "x" } }] }
        1 "boss" 10).2).isOk = true ∧
    (accept_pending_change
        { version := "v1", manager_role := "Mgr",
          rows := [],
          changes := [{ id := 1, submission_id := 7, submitted_by := "alice",
                        submitted_by_role := "ops",
                        data := .row_update 5 {} { role := "x" } }] }
        1 "boss" 10).1.rows = [] := by
  have h := C8_stale_row_apply_noop
    { version := "v1", manager_role := "Mgr",
      rows := [],
      changes := [{ id := 1, submission_id := 7, submitted_by := "alice",
                    submitted_by_role := "ops",
                    data := .row_update 5 {} { role := "x" } }] }
    1
    { id := 1, submission_id := 7, submitted_by := "alice",
      submitted_by_role := "ops", data := .row_update 5 {} { role := "x" } }
    "boss" 10 5
    (by decide) rfl (Or.inl ⟨{}, { role := "x" }, rfl⟩) rfl
  exact ⟨h.1, h.2.1⟩

namespace Conductor

/-- Python `x in intSet` for an optional identifier (`None` is never a
member of a set of integers). -/
def optMemNat (o : Option Nat) (l : List Nat) : Bool :=
  match o with
  | some n => n ∈ l
  | none => false

/-- One explicit move hint of a submission
(`changes_data['explicit_operations']['row_moves']`). -/
structure ExplicitMoveOp where
  row_id : Option Nat := none
  source_phase_number : Option Nat := none
  target_phase_number : Option Nat := none
  target_position : Nat := 0
  source_row_index : Option Nat := none
  deriving DecidableEq, Repr

/-- One explicit duplicate hint of a submission. -/
structure ExplicitDupOp where
  source_row_id : Option Nat := none
  new_row_id : Option Nat := none
  target_phase_number : Option Nat := none
  target_position : Nat := 0
  deriving DecidableEq, Repr

/-- The explicit operation hints of a submission. -/
structure ExplicitOps where
  row_moves : List ExplicitMoveOp := []
  row_duplicates : List ExplicitDupOp := []
  deriving DecidableEq, Repr

/-- One client-side periodic script entry of a submission. -/
structure ClientScript where
  id : Option Nat := none
  name : String := ""
  path : String := ""
  status : Bool := false
  deriving DecidableEq, Repr

/-- The `changes_data` body of a `submitChanges` request: each key is
optional (absent keys are `none`). -/
structure ChangesPayload where
  version : Option String := none
  explicit_operations : Option ExplicitOps := none
  table_data : Option (List SPhase) := none
  roles : Option (List String) := none
  periodic_scripts : Option (List ClientScript) := none
  deriving DecidableEq, Repr

/-- Row payload serialised from a submitted snapshot row. -/
def rowDataOfSRow (r : SRow) : RowData :=
  { role := r.role, time := r.time, duration := r.duration,
    description := r.description, script := r.script, status := r.status }

/-- Row payload serialised from a stored row. -/
def rowDataOfRowRec (r : RowRec) : RowData :=
  { role := r.role, time := r.time, duration := r.duration,
    description := r.description, script := r.script, status := r.status }

/-- Emit one `row_move` change per well-formed explicit move hint
(`create_pending_change`, lines 1814-1841). -/
def explicitMoves (ops : List ExplicitMoveOp) : List ChangeData :=
  ops.filterMap (fun op =>
    match op.row_id, op.source_phase_number, op.target_phase_number with
    | some rid, some sp, some tp =>
      if rid ≠ 0 then
        some (.row_move rid sp tp op.target_position op.source_row_index)
      else none
    | _, _, _ => none)

/-- The row ids consumed by explicit move hints. -/
def movedRows (ops : List ExplicitMoveOp) : List Nat :=
  ops.filterMap (fun op =>
    match op.row_id, op.source_phase_number, op.target_phase_number with
    | some rid, some _, some _ => if rid ≠ 0 then some rid else none
    | _, _, _ => none)

/-- Emit one `row_duplicate` change per well-formed explicit duplicate
hint (`create_pending_change`, lines 1844-1871). -/
def explicitDups (ops : List ExplicitDupOp) : List ChangeData :=
  ops.filterMap (fun op =>
    match op.source_row_id, op.target_phase_number with
    | some srid, some tp =>
      if srid ≠ 0 then some (.row_duplicate srid op.new_row_id tp op.target_position)
      else none
    | _, _ => none)

/-- The source and temporary row ids consumed by explicit duplicate
hints (both are added so the temporary id is never treated as new). -/
def duplicatedRows (ops : List ExplicitDupOp) : List Nat :=
  ops.flatMap (fun op =>
    match op.source_row_id, op.target_phase_number with
    | some srid, some _ =>
      if srid ≠ 0 then
        srid :: (match op.new_row_id with
          | some n => if n ≠ 0 then [n] else []
          | none => [])
      else []
    | _, _ => [])

/-- The stored rows of the phase with the given number
(`current_rows_by_phase.get(phase_number, {})`; phase numbers are unique
within a project). -/
def currentPhaseRows (s : StoreState) (pn : Nat) : List RowRec :=
  match s.phases.find? (fun p => p.phase_number = pn) with
  | some p => s.rows.filter (fun r => r.phase_id = p.id)
  | none => []

/-- The truthy row ids of a submitted phase's rows. -/
def newRowIds (new_rows : List SRow) : List Nat :=
  new_rows.filterMap (fun nr =>
    match nr.id with
    | some n => if n ≠ 0 then some n else none
    | none => none)

/-- Added rows of one phase (`create_pending_change`, lines 1893-1929):
a row with no (truthy) id or an id unknown to the phase is a `row_add`,
unless its id was consumed by an explicit duplicate hint. -/
def phaseAdds (s : StoreState) (duplicated : List Nat) (pn : Nat)
    (current_ids : List Nat) (new_rows : List SRow) : List ChangeData :=
  new_rows.filterMap (fun nr =>
    if !truthy nr.id || !optMemNat nr.id current_ids then
      if optMemNat nr.id duplicated then none
      else some (.row_add pn
        ((s.phases.find? (fun p => p.phase_number = pn)).map (fun p => p.id))
        (rowDataOfSRow nr))
    else none)

/-- Modified rows of one phase (`create_pending_change`, lines
1931-1984): same durable id, any of the six content fields differs.  The
cross-phase fallback for moved rows never fires because an id in
`current_row_ids` is by construction resolvable in the same phase. -/
def phaseUpdates (current_rows : List RowRec) (current_ids : List Nat)
    (new_rows : List SRow) : List ChangeData :=
  new_rows.filterMap (fun nr =>
    match nr.id with
    | some rid =>
      if rid ≠ 0 ∧ rid ∈ current_ids then
        match current_rows.find? (fun r => r.id = rid) with
        | some cr =>
          if cr.role ≠ nr.role ∨ cr.time ≠ nr.time ∨ cr.duration ≠ nr.duration ∨
             cr.description ≠ nr.description ∨ cr.script ≠ nr.script ∨
             cr.status ≠ nr.status then
            some (.row_update rid (rowDataOfRowRec cr) (rowDataOfSRow nr))
          else none
        | none => none
      else none
    | none => none)

/-- Deleted rows of one phase (`create_pending_change`, lines
1986-2016): in the store but absent from the submitted phase, unless
consumed by an explicit move hint. -/
def phaseDeletes (moved : List Nat) (current_rows : List RowRec)
    (new_ids : List Nat) : List ChangeData :=
  (current_rows.filter (fun r => !(r.id ∈ new_ids))).filterMap (fun cr =>
    if cr.id ∈ moved then none
    else some (.row_delete cr.id (rowDataOfRowRec cr)))

/-- Per-phase table diff: adds, then updates, then deletes; a phase
entry without a number is skipped. -/
def phaseChanges (s : StoreState) (moved duplicated : List Nat) (pd : SPhase) :
    List ChangeData :=
  match pd.phase with
  | none => []
  | some pn =>
    let current_rows := currentPhaseRows s pn
    let current_ids := current_rows.map (fun r => r.id)
    phaseAdds s duplicated pn current_ids pd.rows ++
    phaseUpdates current_rows current_ids pd.rows ++
    phaseDeletes moved current_rows (newRowIds pd.rows)

/-- Python set equality of two role lists. -/
def listSetEq (a b : List String) : Bool :=
  a.all (fun x => x ∈ b) && b.all (fun x => x ∈ a)

/-- Role diff (`create_pending_change`, lines 2020-2054): only when a
roles list is explicitly supplied and differs as a set. -/
def roleChanges (current : List String) : Option (List String) → List ChangeData
  | none => []
  | some new_roles =>
    if listSetEq new_roles current then []
    else
      ((new_roles.filter (fun r => !(r ∈ current))).eraseDups.map .role_add) ++
      ((current.filter (fun r => !(r ∈ new_roles))).eraseDups.map .role_delete)

/-- Script payload serialised from a stored script. -/
def scriptDataOf (sc : ScriptRec) : ScriptData :=
  { name := sc.name, path := sc.path, status := sc.status }

/-- Script payload serialised from a client script entry. -/
def scriptDataOfClient (c : ClientScript) : ScriptData :=
  { name := c.name, path := c.path, status := c.status }

/-- Periodic-script diff (`create_pending_change`, lines 2072-2156):
entries matched by truthy durable id; added / modified / deleted. -/
def scriptChanges (current : List ScriptRec) : Option (List ClientScript) → List ChangeData
  | none => []
  | some new_scripts =>
    let newWithIds := new_scripts.filter (fun c => truthy c.id)
    let new_ids := newWithIds.filterMap (fun c => c.id)
    let cur_ids := current.map (fun sc => sc.id)
    let adds := newWithIds.filterMap (fun c =>
      if (c.id.getD 0) ∈ cur_ids then none
      else some (.script_add (scriptDataOfClient c)))
    let updates := newWithIds.filterMap (fun c =>
      match current.find? (fun sc => sc.id = c.id.getD 0) with
      | some sc =>
        if sc.name ≠ c.name ∨ sc.path ≠ c.path ∨ sc.status ≠ c.status then
          some (.script_update sc.id (scriptDataOf sc) (scriptDataOfClient c))
        else none
      | none => none)
    let deletes := current.filterMap (fun sc =>
      if sc.id ∈ new_ids then none
      else some (.script_delete sc.id (scriptDataOf sc)))
    adds ++ updates ++ deletes

/-- Whether a change is a `row_add`. -/
def ChangeData.isRowAdd : ChangeData → Bool
  | .row_add .. => true
  | _ => false

/-- Whether a change is a `row_delete`. -/
def ChangeData.isRowDelete : ChangeData → Bool
  | .row_delete .. => true
  | _ => false

/-- Whether a change is a `row_move`. -/
def ChangeData.isRowMove : ChangeData → Bool
  | .row_move .. => true
  | _ => false

/-- Whether a change is a `row_duplicate`. -/
def ChangeData.isRowDuplicate : ChangeData → Bool
  | .row_duplicate .. => true
  | _ => false

/-- The Diff Engine (`create_pending_change`, `api.py` lines 1750-2195)
as a pure function: the ordered list of change payloads persisted for a
submission, given the current store and the submitted `changes_data`.
Order: version, explicit moves, explicit duplicates, per-phase table
changes, role changes, the internal `table_data` record (only when a
structural change was emitted and a snapshot was supplied), script
changes. -/
def create_pending_change_diff (s : StoreState) (cd : ChangesPayload) : List ChangeData :=
  let versionChanges : List ChangeData :=
    match cd.version with
    | some v => if v ≠ s.version then [.version s.version v] else []
    | none => []
  let moves := match cd.explicit_operations with
    | some ops => explicitMoves ops.row_moves
    | none => []
  let dups := match cd.explicit_operations with
    | some ops => explicitDups ops.row_duplicates
    | none => []
  let moved := match cd.explicit_operations with
    | some ops => movedRows ops.row_moves
    | none => []
  let duplicated := match cd.explicit_operations with
    | some ops => duplicatedRows ops.row_duplicates
    | none => []
  let tableChanges := match cd.table_data with
    | some td => td.flatMap (phaseChanges s moved duplicated)
    | none => []
  let roleCs := roleChanges s.roles cd.roles
  let has_structural :=
    !moves.isEmpty || !dups.isEmpty ||
    tableChanges.any (fun c => c.isRowAdd) || tableChanges.any (fun c => c.isRowDelete)
  let internal : List ChangeData :=
    match cd.table_data with
    | some td => if has_structural then [.table_data td] else []
    | none => []
  let scriptCs := scriptChanges s.scripts cd.periodic_scripts
  versionChanges ++ moves ++ dups ++ tableChanges ++ roleCs ++ internal ++ scriptCs

/-- The client snapshot that mirrors the current store exactly: same
version literal, same phases and rows (with durable ids) in store order,
same roles, same scripts, and no explicit operations. -/
def snapshotOf (s : StoreState) : ChangesPayload :=
  { version := some s.version,
    explicit_operations := none,
    table_data := some (s.phases.map (fun p =>
      { phase := some p.phase_number, is_active := some p.is_active,
        rows := (s.rows.filter (fun r => r.phase_id = p.id)).map rowDict })),
    roles := some s.roles,
    periodic_scripts := some (s.scripts.map (fun sc =>
      { id := some sc.id, name := sc.name, path := sc.path, status := sc.status })) }

end Conductor

namespace Conductor

/-- `find?` by a key resolves a member to itself when keys are unique. -/
theorem find?_key_unique {α β : Type} [DecidableEq β] (key : α → β) (l : List α)
    (hnd : (l.map key).Nodup) (a : α) (ha : a ∈ l) :
    l.find? (fun x => key x = key a) = some a := by
  induction l with
  | nil => cases ha
  | cons b t ih =>
    simp only [List.map_cons, List.nodup_cons] at hnd
    rcases List.mem_cons.mp ha with rfl | hat
    · exact List.find?_cons_of_pos _ (by simp)
    · have hne : ¬(key b = key a) := fun h => hnd.1 (h ▸ List.mem_map_of_mem key hat)
      rw [List.find?_cons_of_neg _ (by simpa using hne)]
      exact ih hnd.2 hat

/-- A concatenation-of-empties helper for `flatMap`. -/
theorem flatMap_eq_nil_of_forall {α β : Type} (l : List α) (f : α → List β)
    (h : ∀ a ∈ l, f a = []) : l.flatMap f = [] := by
  induction l with
  | nil => rfl
  | cons x xs ih =>
    rw [List.flatMap_cons, h x (by simp), List.nil_append]
    exact ih (fun a ha => h a (by simp [ha]))

/-- Set equality of a role list with itself. -/
theorem listSetEq_refl (a : List String) : listSetEq a a = true := by
  simp [listSetEq, List.all_eq_true]

/-- The stored rows of one phase, for a phase of the store. -/
theorem currentPhaseRows_of_mem (s : StoreState) (p : PhaseRec)
    (hpn : (s.phases.map (fun q => q.phase_number)).Nodup) (hp : p ∈ s.phases) :
    currentPhaseRows s p.phase_number = s.rows.filter (fun r => r.phase_id = p.id) := by
  unfold currentPhaseRows
  rw [find?_key_unique (fun q => q.phase_number) s.phases hpn p hp]

end Conductor

namespace Conductor

/-- A snapshot row serialised from a stored row of the phase is never an
add: its durable id is truthy and known to the phase. -/
theorem phaseAdds_self (s : StoreState) (pn : Nat) (rows_p : List RowRec)
    (hid : ∀ r ∈ rows_p, r.id ≠ 0) :
    phaseAdds s [] pn (rows_p.map (fun r => r.id)) (rows_p.map rowDict) = [] := by
  unfold phaseAdds
  rw [List.filterMap_map]
  apply List.filterMap_eq_nil_iff.mpr
  intro r hr
  simp [rowDict, truthy, optMemNat, hid r hr]
  exact ⟨r, hr, rfl⟩

/-- A snapshot row serialised from a stored row of the phase is never an
update: every content field is equal. -/
theorem phaseUpdates_self (rows_p : List RowRec)
    (hid : ∀ r ∈ rows_p, r.id ≠ 0)
    (hnd : (rows_p.map (fun r => r.id)).Nodup) :
    phaseUpdates rows_p (rows_p.map (fun r => r.id)) (rows_p.map rowDict) = [] := by
  unfold phaseUpdates
  rw [List.filterMap_map]
  apply List.filterMap_eq_nil_iff.mpr
  intro r hr
  have hfind : rows_p.find? (fun x => x.id = r.id) = some r :=
    find?_key_unique (fun x => x.id) rows_p hnd r hr
  simp [rowDict, hid r hr, List.mem_map_of_mem (fun r => r.id) hr, hfind]

/-- A stored row of the phase also present in the snapshot is never a
delete. -/
theorem phaseDeletes_self (rows_p : List RowRec)
    (hid : ∀ r ∈ rows_p, r.id ≠ 0) :
    phaseDeletes [] rows_p (newRowIds (rows_p.map rowDict)) = [] := by
  unfold phaseDeletes
  have hfil : rows_p.filter (fun r => !(r.id ∈ newRowIds (rows_p.map rowDict))) = [] := by
    apply List.filter_eq_nil_iff.mpr
    intro r hr
    have : r.id ∈ newRowIds (rows_p.map rowDict) := by
      unfold newRowIds
      rw [List.filterMap_map]
      exact List.mem_filterMap.mpr ⟨r, hr, by simp [rowDict, hid r hr]⟩
    simp [this]
  rw [hfil]
  rfl

end Conductor

/-- C9: submitting a snapshot identical to the current durable state —
same version literal, same phases with the same rows (same ids, content,
order), same roles, same scripts, no explicit operations — creates zero
change records; in particular no internal `table_data` record. -/
theorem C9_identity_snapshot_no_changes (s : StoreState)
    (hpn : (s.phases.map (fun p => p.phase_number)).Nodup)
    (hrid : ∀ r ∈ s.rows, r.id ≠ 0)
    (hrnd : (s.rows.map (fun r => r.id)).Nodup)
    (hsid : ∀ sc ∈ s.scripts, sc.id ≠ 0)
    (hsnd : (s.scripts.map (fun sc => sc.id)).Nodup) :
    create_pending_change_diff s (snapshotOf s) = [] := by
  have htable : (s.phases.map (fun p =>
      ({ phase := some p.phase_number, is_active := some p.is_active,
         rows := (s.rows.filter (fun r => r.phase_id = p.id)).map rowDict } : SPhase))).flatMap
        (phaseChanges s [] []) = [] := by
    apply flatMap_eq_nil_of_forall
    intro pd hpd
    rcases List.mem_map.mp hpd with ⟨p, hp, rfl⟩
    have hsub : (s.rows.filter (fun r => r.phase_id = p.id)).Sublist s.rows :=
      List.filter_sublist s.rows
    have hid : ∀ r ∈ s.rows.filter (fun r => r.phase_id = p.id), r.id ≠ 0 :=
      fun r hr => hrid r (List.mem_of_mem_filter hr)
    have hnd : ((s.rows.filter (fun r => r.phase_id = p.id)).map (fun r => r.id)).Nodup :=
      hrnd.sublist (hsub.map (fun r => r.id))
    show phaseChanges s [] []
        { phase := some p.phase_number, is_active := some p.is_active,
          rows := (s.rows.filter (fun r => r.phase_id = p.id)).map rowDict } = []
    unfold phaseChanges
    simp only []
    rw [currentPhaseRows_of_mem s p hpn hp]
    rw [phaseAdds_self s p.phase_number _ hid,
        phaseUpdates_self _ hid hnd,
        phaseDeletes_self _ hid]
    rfl
  have hscripts : scriptChanges s.scripts
      (some (s.scripts.map (fun sc =>
        ({ id := some sc.id, name := sc.name, path := sc.path,
           status := sc.status } : ClientScript)))) = [] := by
    unfold scriptChanges
    dsimp only []
    have hkeep : (s.scripts.map (fun sc =>
        ({ id := some sc.id, name := sc.name, path := sc.path,
           status := sc.status } : ClientScript))).filter (fun c => truthy c.id) =
        s.scripts.map (fun sc =>
          ({ id := some sc.id, name := sc.name, path := sc.path,
             status := sc.status } : ClientScript)) := by
      apply List.filter_eq_self.mpr
      intro c hc
      rcases List.mem_map.mp hc with ⟨sc, hsc, rfl⟩
      simp [truthy, hsid sc hsc]
    rw [hkeep]
    have hadds : (s.scripts.map (fun sc =>
        ({ id := some sc.id, name := sc.name, path := sc.path,
           status := sc.status } : ClientScript))).filterMap (fun c =>
          if (c.id.getD 0) ∈ s.scripts.map (fun sc => sc.id) then none
          else some (ChangeData.script_add (scriptDataOfClient c))) = [] := by
      rw [List.filterMap_map]
      apply List.filterMap_eq_nil_iff.mpr
      intro sc hsc
      simp only [Option.getD_some, Function.comp]
      rw [if_pos (List.mem_map_of_mem (fun sc => sc.id) hsc)]
    have hupds : (s.scripts.map (fun sc =>
        ({ id := some sc.id, name := sc.name, path := sc.path,
           status := sc.status } : ClientScript))).filterMap (fun c =>
          match s.scripts.find? (fun sc => sc.id = c.id.getD 0) with
          | some sc =>
            if sc.name ≠ c.name ∨ sc.path ≠ c.path ∨ sc.status ≠ c.status then
              some (ChangeData.script_update sc.id (scriptDataOf sc) (scriptDataOfClient c))
            else none
          | none => none) = [] := by
      rw [List.filterMap_map]
      apply List.filterMap_eq_nil_iff.mpr
      intro sc hsc
      have hfind : s.scripts.find? (fun x => x.id = sc.id) = some sc :=
        find?_key_unique (fun x => x.id) s.scripts hsnd sc hsc
      simp [hfind]
    have hdels : s.scripts.filterMap (fun sc =>
        if sc.id ∈ (s.scripts.map (fun sc =>
            ({ id := some sc.id, name := sc.name, path := sc.path,
               status := sc.status } : ClientScript))).filterMap (fun c => c.id) then none
        else some (ChangeData.script_delete sc.id (scriptDataOf sc))) = [] := by
      apply List.filterMap_eq_nil_iff.mpr
      intro sc hsc
      have : sc.id ∈ (s.scripts.map (fun sc =>
          ({ id := some sc.id, name := sc.name, path := sc.path,
             status := sc.status } : ClientScript))).filterMap (fun c => c.id) := by
        rw [List.filterMap_map]
        exact List.mem_filterMap.mpr ⟨sc, hsc, rfl⟩
      simp [this]
      exact ⟨sc, hsc, rfl⟩
    rw [hadds, hupds, hdels]
    rfl
  unfold create_pending_change_diff snapshotOf
  dsimp only []
  rw [if_neg (by simp)]
  rw [htable, hscripts, roleChanges, if_pos (listSetEq_refl s.roles)]
  rfl

/-- C9 witness: a small concrete store diffs to zero changes against its
own snapshot. -/
theorem C9_identity_snapshot_no_changes_witness :
    create_pending_change_diff
      { version := "v1", manager_role := "Mgr",
        phases := [{ id := 1, phase_number := 1 }],
        rows := [{ id := 1, phase_id := 1, role := "r", time := "t",
                   duration := "d", description := "x", script := "sc",
                   status := "N/A" }],
        roles := ["ops"],
        scripts := [{ id := 1, name := "s", path := "p" }] }
      (snapshotOf
        { version := "v1", manager_role := "Mgr",
          phases := [{ id := 1, phase_number := 1 }],
          rows := [{ id := 1, phase_id := 1, role := "r", time := "t",
                     duration := "d", description := "x", script := "sc",
                     status := "N/A" }],
          roles := ["ops"],
          scripts := [{ id := 1, name := "s", path := "p" }] }) = [] :=
  C9_identity_snapshot_no_changes _
    (by decide) (by decide) (by decide) (by decide) (by decide)

/-- C2 counterexample: a submitted row with a temporary id (above the
10^12 threshold) whose content signature equals existing durable row B
(id 1), placed in a different phase, with no explicit duplicate hint,
yields zero `row_duplicate` changes and one `row_add` — the diff of
`create_pending_change` never infers duplicates from signatures. -/
theorem C2_no_signature_duplicate_counterexample :
    ((create_pending_change_diff
        { version := "v1", manager_role := "Mgr",
          phases := [{ id := 1, phase_number := 1 }, { id := 2, phase_number := 2 }],
          rows := [{ id := 1, phase_id := 1, role := "r", time := "t",
                     duration := "d", description := "x", script := "sc",
                     status := "N/A" }] }
        { table_data := some
            [{ phase := some 1,
               rows := [{ id := some 1, role := "r", time := "t", duration := "d",
                          description := "x", script := "sc", status := "N/A" }] },
             { phase := some 2,
               rows := [{ id := some 2000000000000, role := "r", time := "t",
                          duration := "d", description := "x", script := "sc",
                          status := "N/A" }] }] }).filter
        (fun c => c.isRowDuplicate)).length = 0 ∧
    ((create_pending_change_diff
        { version := "v1", manager_role := "Mgr",
          phases := [{ id := 1, phase_number := 1 }, { id := 2, phase_number := 2 }],
          rows := [{ id := 1, phase_id := 1, role := "r", time := "t",
                     duration := "d", description := "x", script := "sc",
                     status := "N/A" }] }
        { table_data := some
            [{ phase := some 1,
               rows := [{ id := some 1, role := "r", time := "t", duration := "d",
                          description := "x", script := "sc", status := "N/A" }] },
             { phase := some 2,
               rows := [{ id := some 2000000000000, role := "r", time := "t",
                          duration := "d", description := "x", script := "sc",
                          status := "N/A" }] }] }).filter
        (fun c => c.isRowAdd)).length = 1 := by
  constructor <;> rfl

/-- C2 amended: a submitted row carrying a temporary id whose content
signature equals an existing durable row B, placed in a different phase,
yields exactly one `row_duplicate{source=B}` and no `row_add` only when
the client supplies the explicit duplicate hint `(B, temp id)`; with no
hint the diff emits one `row_add` for that row and no `row_duplicate` —
`create_pending_change` never infers duplicates from signatures. -/
theorem C2_duplicate_requires_hint
    (ro ti du de scr st : String) (b t pid1 pn1 pn2 ts k : Nat)
    (hb : b ≠ 0) (ht : t ≠ 0) (hpn : pn1 ≠ pn2) :
    (((create_pending_change_diff
        { version := "v1", manager_role := "Mgr",
          phases := [{ id := pid1, phase_number := pn1 }],
          rows := [{ id := b, phase_id := pid1, role := ro, time := ti,
                     duration := du, description := de, script := scr,
                     status := st, updated_at := ts }] }
        { explicit_operations := some
            { row_duplicates := [{ source_row_id := some b, new_row_id := some t,
                                   target_phase_number := some pn2,
                                   target_position := k }] },
          table_data := some
            [{ phase := some pn1,
               rows := [rowDict { id := b, phase_id := pid1, role := ro, time := ti,
                                  duration := du, description := de, script := scr,
                                  status := st, updated_at := ts }] },
             { phase := some pn2,
               rows := [{ id := some t, role := ro, time := ti, duration := du,
                          description := de, script := scr, status := st }] }] }).filter
        (fun c => c.isRowDuplicate)) =
      [ChangeData.row_duplicate b (some t) pn2 k] ∧
     ((create_pending_change_diff
        { version := "v1", manager_role := "Mgr",
          phases := [{ id := pid1, phase_number := pn1 }],
          rows := [{ id := b, phase_id := pid1, role := ro, time := ti,
                     duration := du, description := de, script := scr,
                     status := st, updated_at := ts }] }
        { explicit_operations := some
            { row_duplicates := [{ source_row_id := some b, new_row_id := some t,
                                   target_phase_number := some pn2,
                                   target_position := k }] },
          table_data := some
            [{ phase := some pn1,
               rows := [rowDict { id := b, phase_id := pid1, role := ro, time := ti,
                                  duration := du, description := de, script := scr,
                                  status := st, updated_at := ts }] },
             { phase := some pn2,
               rows := [{ id := some t, role := ro, time := ti, duration := du,
                          description := de, script := scr, status := st }] }] }).filter
        (fun c => c.isRowAdd)) = []) ∧
    (((create_pending_change_diff
        { version := "v1", manager_role := "Mgr",
          phases := [{ id := pid1, phase_number := pn1 }],
          rows := [{ id := b, phase_id := pid1, role := ro, time := ti,
                     duration := du, description := de, script := scr,
                     status := st, updated_at := ts }] }
        { table_data := some
            [{ phase := some pn1,
               rows := [rowDict { id := b, phase_id := pid1, role := ro, time := ti,
                                  duration := du, description := de, script := scr,
                                  status := st, updated_at := ts }] },
             { phase := some pn2,
               rows := [{ id := some t, role := ro, time := ti, duration := du,
                          description := de, script := scr, status := st }] }] }).filter
        (fun c => c.isRowDuplicate)) = [] ∧
     ((create_pending_change_diff
        { version := "v1", manager_role := "Mgr",
          phases := [{ id := pid1, phase_number := pn1 }],
          rows := [{ id := b, phase_id := pid1, role := ro, time := ti,
                     duration := du, description := de, script := scr,
                     status := st, updated_at := ts }] }
        { table_data := some
            [{ phase := some pn1,
               rows := [rowDict { id := b, phase_id := pid1, role := ro, time := ti,
                                  duration := du, description := de, script := scr,
                                  status := st, updated_at := ts }] },
             { phase := some pn2,
               rows := [{ id := some t, role := ro, time := ti, duration := du,
                          description := de, script := scr, status := st }] }] }).filter
        (fun c => c.isRowAdd)) =
      [ChangeData.row_add pn2 none
        (rowDataOfSRow { id := some t, role := ro, time := ti, duration := du,
                         description := de, script := scr, status := st })]) := by
  refine ⟨⟨?_, ?_⟩, ?_, ?_⟩ <;>
    simp [create_pending_change_diff, explicitMoves, explicitDups, movedRows,
      duplicatedRows, phaseChanges, currentPhaseRows, phaseAdds, phaseUpdates,
      phaseDeletes, newRowIds, roleChanges, scriptChanges, rowDict, rowDataOfSRow,
      truthy, optMemNat, ChangeData.isRowAdd, ChangeData.isRowDelete,
      ChangeData.isRowDuplicate, ChangeData.isRowMove, List.find?, hb, ht, hpn]

/-- C2 amended witness: the hinted scenario at concrete values emits the
one expected `row_duplicate`. -/
theorem C2_duplicate_requires_hint_witness :
    ((create_pending_change_diff
        { version := "v1", manager_role := "Mgr",
          phases := [{ id := 1, phase_number := 1 }],
          rows := [{ id := 1, phase_id := 1, role := "r", time := "t",
                     duration := "d", description := "x", script := "sc",
                     status := "N/A", updated_at := 5 }] }
        { explicit_operations := some
            { row_duplicates := [{ source_row_id := some 1,
                                   new_row_id := some 2000000000000,
                                   target_phase_number := some 2,
                                   target_position := 0 }] },
          table_data := some
            [{ phase := some 1,
               rows := [rowDict { id := 1, phase_id := 1, role := "r", time := "t",
                                  duration := "d", description := "x", script := "sc",
                                  status := "N/A", updated_at := 5 }] },
             { phase := some 2,
               rows := [{ id := some 2000000000000, role := "r", time := "t",
                          duration := "d", description := "x", script := "sc",
                          status := "N/A" }] }] }).filter
        (fun c => c.isRowDuplicate)) =
      [ChangeData.row_duplicate 1 (some 2000000000000) 2 0] :=
  (C2_duplicate_requires_hint "r" "t" "d" "x" "sc" "N/A" 1 2000000000000 1 1 2 5 0
    (by decide) (by decide) (by decide)).1.1

namespace Conductor

/-- Association list with Python-dict insert semantics: overwriting a
key keeps its original position, a new key is appended. -/
def dinsert {κ ν : Type} [DecidableEq κ] (k : κ) (v : ν) :
    List (κ × ν) → List (κ × ν)
  | [] => [(k, v)]
  | (k1, v1) :: rest =>
    if k1 = k then (k1, v) :: rest else (k1, v1) :: dinsert k v rest

/-- Python `d.get(k)`. -/
def dget {κ ν : Type} [DecidableEq κ] (d : List (κ × ν)) (k : κ) : Option ν :=
  (d.find? (fun kv => kv.1 = k)).map (fun kv => kv.2)

/-- Python `k in d`. -/
def dmem {κ ν : Type} [DecidableEq κ] (k : κ) (d : List (κ × ν)) : Bool :=
  (d.find? (fun kv => kv.1 = k)).isSome

/-- Python `s.add(x)` on a set modelled as a duplicate-free list. -/
def pyAdd {α : Type} [DecidableEq α] (l : List α) (x : α) : List α :=
  if x ∈ l then l else l ++ [x]

/-- `enumerate(l)` starting at the given index. -/
def withIdx {α : Type} : List α → Nat → List (Nat × α)
  | [], _ => []
  | x :: xs, i => (i, x) :: withIdx xs (i + 1)

/-- One row of the pre-update state (`old_phases_data` entry), in the
phase's display order. -/
structure ORow where
  id : Nat
  role : String := ""
  time : String := ""
  duration : String := ""
  description : String := ""
  script : String := ""
  status : String := "N/A"
  deriving DecidableEq, Repr

/-- One phase of the pre-update state, with its rows in display order
(the `Phase.rows` relationship orders by `(updated_at, id)`). -/
structure OPhase where
  phase_number : Nat
  phase_id : Nat
  is_active : Bool := false
  rows : List ORow := []
  deriving DecidableEq, Repr

/-- One submitted row of the bulk-update payload. -/
structure PRow where
  id : Option Nat := none
  role : String := ""
  time : String := "00:00:00"
  duration : String := "00:00"
  description : String := ""
  script : String := ""
  status : String := "N/A"
  scriptResult : Option Bool := none
  deriving DecidableEq, Repr

/-- One submitted phase of the bulk-update payload. -/
structure PPhase where
  phase : Nat
  is_active : Bool := false
  rows : List PRow := []
  deriving DecidableEq, Repr

/-- The audit events emitted by `update_table_data` (each is written at
the project's current `reset_epoch`; the content payloads of the log
entries are not needed by any claim and are omitted). -/
inductive LogEvent
  | phase_add (phase_id phase_number : Nat)
  | phase_delete (phase_id phase_number : Nat)
  | row_add (row_id phase_number position : Nat)
  | row_delete (row_id phase_number position : Nat)
  | row_edit (row_id phase_number : Nat) (field : String)
  | row_move (row_id source_phase target_phase old_index new_index position : Nat)
  deriving DecidableEq, Repr

/-- Whether an audit event is a row deletion. -/
def LogEvent.isRowDelete : LogEvent → Bool
  | .row_delete .. => true
  | _ => false

/-- Whether an audit event is a row move. -/
def LogEvent.isRowMove : LogEvent → Bool
  | .row_move .. => true
  | _ => false

/-- The content signature of `get_row_signature`: the five content
fields, status excluded. -/
def sigO (r : ORow) : String × String × String × String × String :=
  (r.role, r.time, r.duration, r.description, r.script)

/-- Signature of a submitted row. -/
def sigP (r : PRow) : String × String × String × String × String :=
  (r.role, r.time, r.duration, r.description, r.script)

/-- `old_rows_by_signature`: signature → (phase_number, index, row id);
later rows overwrite earlier ones with an equal signature. -/
def buildOldSig (old : List OPhase) : List ((String × String × String × String × String) × (Nat × Nat × Nat)) :=
  old.foldl (fun d ph =>
    (withIdx ph.rows 0).foldl (fun d2 ir =>
      dinsert (sigO ir.2) (ph.phase_number, ir.1, ir.2.id) d2) d) []

/-- `old_rows_by_id`: row id → (phase_number, index). -/
def buildOldById (old : List OPhase) : List (Nat × (Nat × Nat)) :=
  old.foldl (fun d ph =>
    (withIdx ph.rows 0).foldl (fun d2 ir =>
      dinsert ir.2.id (ph.phase_number, ir.1) d2) d) []

/-- `new_rows_by_signature_list`: signature → all occurrences
(phase, index, raw id). -/
def buildNewSigList (newp : List PPhase) :
    List ((String × String × String × String × String) × List (Nat × Nat × Option Nat)) :=
  newp.foldl (fun d ph =>
    (withIdx ph.rows 0).foldl (fun d2 ir =>
      match dget d2 (sigP ir.2) with
      | some lst => dinsert (sigP ir.2) (lst ++ [(ph.phase, ir.1, ir.2.id)]) d2
      | none => dinsert (sigP ir.2) [(ph.phase, ir.1, ir.2.id)] d2) d) []

/-- `new_rows_by_id`: truthy submitted id → (phase, index). -/
def buildNewById (newp : List PPhase) : List (Nat × (Nat × Nat)) :=
  newp.foldl (fun d ph =>
    (withIdx ph.rows 0).foldl (fun d2 ir =>
      match ir.2.id with
      | some n => if n ≠ 0 then dinsert n (ph.phase, ir.1) d2 else d2
      | none => d2) d) []

/-- Python `new_row_id != old_row_id` for a raw (possibly absent)
submitted id against an integer id. -/
def optNeNat (o : Option Nat) (m : Nat) : Bool :=
  match o with
  | some n => n ≠ m
  | none => true

/-- `duplicate_new_row_ids` (lines 967-994): a submitted row whose
signature matches an old row but whose raw id differs from the old row's
id and is unknown to `old_rows_by_id`. -/
def detectDuplicates
    (newSigList : List ((String × String × String × String × String) × List (Nat × Nat × Option Nat)))
    (oldSig : List ((String × String × String × String × String) × (Nat × Nat × Nat)))
    (oldById : List (Nat × (Nat × Nat))) : List (Option Nat) :=
  newSigList.foldl (fun acc kv =>
    match dget oldSig kv.1 with
    | some o =>
      kv.2.foldl (fun acc2 t =>
        let nid := t.2.2
        let is_different_id := optNeNat nid o.2.2
        let is_temporary_id :=
          match nid with
          | some n => !(dmem n oldById)
          | none => true
        if is_different_id && is_temporary_id then pyAdd acc2 nid else acc2) acc
    | none => acc) []

/-- A potential same- or cross-phase move candidate. -/
structure PMove where
  old_row_id : Nat
  new_row_id : Option Nat
  old_phase : Nat
  new_phase : Nat
  old_idx : Nat
  new_idx : Nat
  index_change : Nat
  deriving DecidableEq, Repr

/-- `abs(new_idx - old_idx)`. -/
def natDist (a b : Nat) : Nat := if a ≤ b then b - a else a - b

/-- Scan a signature's submitted occurrences for the first non-duplicate
entry carrying the old row's id (the match loop with its `break`). -/
def matchRowInList (oid : Nat) (dups : List (Option Nat)) :
    List (Nat × Nat × Option Nat) → Option (Nat × Nat × Option Nat)
  | [] => none
  | t :: rest =>
    if t.2.2 ∈ dups then matchRowInList oid dups rest
    else if t.2.2 = some oid then some t
    else matchRowInList oid dups rest

/-- Record a deleted old index for cascade detection. -/
def addDelIdx (d : List (Nat × List Nat)) (pn i : Nat) : List (Nat × List Nat) :=
  match dget d pn with
  | some l => dinsert pn (pyAdd l i) d
  | none => dinsert pn [i] d

/-- The move-detection loop (lines 1001-1051): per old signature, match
by id among that signature's submitted occurrences; a position change
becomes a potential move, an unmatched old id whose id is gone from the
submission records a deleted index. -/
def detectMoves
    (oldSig : List ((String × String × String × String × String) × (Nat × Nat × Nat)))
    (newSigList : List ((String × String × String × String × String) × List (Nat × Nat × Option Nat)))
    (newById : List (Nat × (Nat × Nat))) (dups : List (Option Nat)) :
    List PMove × List Nat × List (Nat × List Nat) :=
  oldSig.foldl (fun acc kv =>
    let op := kv.2.1
    let oi := kv.2.2.1
    let oid := kv.2.2.2
    match dget newSigList kv.1 with
    | some lst =>
      match matchRowInList oid dups lst with
      | some t =>
        if op ≠ t.1 ∨ oi ≠ t.2.1 then
          (acc.1 ++ [⟨oid, t.2.2, op, t.1, oi, t.2.1, natDist oi t.2.1⟩],
           pyAdd acc.2.1 oid, acc.2.2)
        else acc
      | none =>
        if !(dmem oid newById) then (acc.1, acc.2.1, addDelIdx acc.2.2 op oi) else acc
    | none =>
      if !(dmem oid newById) then (acc.1, acc.2.1, addDelIdx acc.2.2 op oi) else acc) ([], [], [])

/-- Python `max(phase_moves, key=index_change)`: the first maximal
element. -/
def maxByChange (m0 : PMove) (rest : List PMove) : PMove :=
  rest.foldl (fun cur m => if m.index_change > cur.index_change then m else cur) m0

/-- The cascade check of lines 1084-1099 for one candidate move. -/
def isCascadingShift (m : PMove) (pn : Nat) (old : List OPhase)
    (delIdx : List (Nat × List Nat)) (newById : List (Nat × (Nat × Nat))) : Bool :=
  if m.old_phase = m.new_phase ∧ m.new_idx < m.old_idx ∧ m.new_idx = m.old_idx - 1 then
    let deleted_before_idx := m.old_idx - 1
    if (match dget delIdx pn with
        | some l => decide (deleted_before_idx ∈ l)
        | none => false) then true
    else
      match old.find? (fun q => q.phase_number = pn) with
      | some oph =>
        match oph.rows.get? deleted_before_idx with
        | some dr => dr.id ≠ 0 && !(dmem dr.id newById)
        | none => false
      | none => false
  else false

/-- The move filter (lines 1053-1109): cross-phase moves always pass;
per phase, only the candidate with the largest index change passes, and
none passes when all candidates shifted by exactly one position or when
the survivor is a cascading shift after a deletion. -/
def movesFilter (potential : List PMove) (old : List OPhase)
    (delIdx : List (Nat × List Nat)) (newById : List (Nat × (Nat × Nat))) : List PMove :=
  let crossPhase := potential.filter (fun m => m.old_phase ≠ m.new_phase)
  let groups : List (Nat × List PMove) :=
    potential.foldl (fun d m =>
      if m.old_phase = m.new_phase then
        match dget d m.old_phase with
        | some l => dinsert m.old_phase (l ++ [m]) d
        | none => dinsert m.old_phase [m] d
      else d) []
  crossPhase ++ groups.flatMap (fun g =>
    match g.2 with
    | [] => []
    | m0 :: rest =>
      let maxm := maxByChange m0 rest
      let should_skip :=
        ((m0 :: rest).length > 1 && (m0 :: rest).all (fun m => m.index_change = 1)) ||
        isCascadingShift maxm g.1 old delIdx newById
      if should_skip then [] else [maxm])

/-- 1-based global position of an old row (phase `op`, index `oi`),
counting the rows of lower-numbered phases (`old` is in ascending
phase-number order, matching Python's `sorted(old_phases_data.keys())`). -/
def posAuxOld : List OPhase → Nat → Nat → Nat
  | [], _, _ => 0
  | ph :: rest, op, oi =>
    if ph.phase_number < op then ph.rows.length + posAuxOld rest op oi
    else if ph.phase_number = op then oi
    else posAuxOld rest op oi

/-- 1-based global position of a submitted row over the sorted payload
phases. -/
def posAuxNew : List PPhase → Nat → Nat → Nat
  | [], _, _ => 0
  | ph :: rest, np, ni =>
    if ph.phase < np then ph.rows.length + posAuxNew rest np ni
    else if ph.phase = np then ni
    else posAuxNew rest np ni

/-- Insertion into a phase-number-sorted payload list. -/
def insertPhaseSorted (p : PPhase) : List PPhase → List PPhase
  | [] => [p]
  | q :: rest =>
    if p.phase ≤ q.phase then p :: q :: rest else q :: insertPhaseSorted p rest

/-- `sorted(new_phases_data.keys())` as a sort of the payload list. -/
def sortPhases : List PPhase → List PPhase
  | [] => []
  | p :: rest => insertPhaseSorted p (sortPhases rest)

end Conductor

namespace Conductor

/-- Recreation of phases and rows from the payload (lines 873-909):
phases and rows get fresh autoincrement ids in payload order; returns
the recreated tables plus the `created_phases` / `created_rows`
bookkeeping maps. -/
def recreateTables : List PPhase → Nat → Nat → Nat →
    List PhaseRec × List RowRec × List (Nat × Nat) × List (Nat × List Nat)
  | [], _, _, _ => ([], [], [], [])
  | ph :: rest, pidc, ridc, now =>
    let phaseRec : PhaseRec := { id := pidc, phase_number := ph.phase, is_active := ph.is_active }
    let rowRecs : List RowRec := (withIdx ph.rows 0).map (fun ir =>
      { id := ridc + ir.1, phase_id := pidc, role := ir.2.role, time := ir.2.time,
        duration := ir.2.duration, description := ir.2.description,
        script := ir.2.script, status := ir.2.status,
        script_result := ir.2.scriptResult, updated_at := now })
    let rowIds : List Nat := (withIdx ph.rows 0).map (fun ir => ridc + ir.1)
    let r := recreateTables rest (pidc + 1) (ridc + ph.rows.length) now
    (phaseRec :: r.1, rowRecs ++ r.2.1,
     dinsert ph.phase pidc r.2.2.1, dinsert ph.phase rowIds r.2.2.2)

/-- The move-logging loop (lines 1111-1152): duplicates and unknown
temporary (above-threshold) ids are skipped; the surviving move is
logged under the recreated row id at the target position. -/
def logMoves (moves : List PMove) (dups : List (Option Nat))
    (oldById : List (Nat × (Nat × Nat))) (createdRows : List (Nat × List Nat))
    (old : List OPhase) : List LogEvent :=
  moves.filterMap (fun m =>
    if m.new_row_id ∈ dups then none
    else
      let skip_temp :=
        match m.new_row_id with
        | some n =>
          if n ≠ 0 && !(dmem n oldById) then decide (n > 1000000000000) else false
        | none => false
      if skip_temp then none
      else
        match dget createdRows m.new_phase with
        | some lst =>
          match lst.get? m.new_idx with
          | some new_db_id =>
            some (.row_move new_db_id m.old_phase m.new_phase m.old_idx m.new_idx
              (1 + posAuxOld old m.old_phase m.old_idx))
          | none => none
        | none => none)

/-- The five per-field edit events of a row comparison. -/
def fieldEdits (rid pn : Nat) (orow : ORow) (nrow : PRow) : List LogEvent :=
  (if orow.role ≠ nrow.role then [LogEvent.row_edit rid pn "role"] else []) ++
  (if orow.time ≠ nrow.time then [LogEvent.row_edit rid pn "time"] else []) ++
  (if orow.duration ≠ nrow.duration then [LogEvent.row_edit rid pn "duration"] else []) ++
  (if orow.description ≠ nrow.description then [LogEvent.row_edit rid pn "description"] else []) ++
  (if orow.script ≠ nrow.script then [LogEvent.row_edit rid pn "script"] else [])

/-- `old_rows_at_idx.get(idx)` (truthy ids only). -/
def oldIdAt (old_rows : List ORow) (idx : Nat) : Option Nat :=
  match old_rows.get? idx with
  | some r => if r.id ≠ 0 then some r.id else none
  | none => none

/-- `new_rows_at_idx.get(idx)` (truthy ids only). -/
def newIdAt (new_rows : List PRow) (idx : Nat) : Option Nat :=
  match new_rows.get? idx with
  | some r =>
    match r.id with
    | some n => if n ≠ 0 then some n else none
    | none => none
  | none => none

/-- One index step of the per-phase positional pass (lines 1180-1360).
State: `(created_idx, events so far)`. -/
def posStep (pn : Nat) (old : List OPhase) (sortedNew : List PPhase)
    (old_rows : List ORow) (new_rows : List PRow) (created_list : List Nat)
    (oldById newById : List (Nat × (Nat × Nat))) (movedIds : List Nat)
    (dups : List (Option Nat)) (st : Nat × List LogEvent) (idx : Nat) :
    Nat × List LogEvent :=
  let created_idx := st.1
  let evs := st.2
  if old_rows.length ≤ idx then
    -- a submitted row beyond the old length: candidate addition
    if created_idx < created_list.length then
      let crid := created_list.getD created_idx 0
      let new_row_id := newIdAt new_rows idx
      let in_moved := match new_row_id with
        | some n => decide (n ∈ movedIds)
        | none => false
      let in_old := match new_row_id with
        | some n => dmem n oldById
        | none => false
      let is_duplicate := match new_row_id with
        | some n => decide (some n ∈ dups)
        | none => false
      let is_temp := match new_row_id with
        | some n => if !(dmem n oldById) then decide (n > 1000000000000) else false
        | none => false
      let is_truly_new := new_row_id.isSome && !in_moved && (!in_old || is_duplicate || is_temp)
      if is_truly_new then
        (created_idx + 1, evs ++ [.row_add crid pn (1 + posAuxNew sortedNew pn idx)])
      else (created_idx + 1, evs)
    else st
  else if new_rows.length ≤ idx then
    -- an old row beyond the submitted length: candidate deletion
    match oldIdAt old_rows idx with
    | some oid =>
      if oid ∈ movedIds then st
      else (created_idx, evs ++ [.row_delete oid pn (1 + posAuxOld old pn idx)])
    | none => st
  else
    -- both positions exist: compare raw rows
    let orow := old_rows.getD idx {id := 0}
    let nrow := new_rows.getD idx {}
    let is_new_temp :=
      match nrow.id with
      | some n => if n ≠ 0 && !(dmem n oldById) then decide (n > 1000000000000) else false
      | none => false
    if orow.id ∈ movedIds && !is_new_temp then (created_idx + 1, evs)
    else if sigO orow = sigP nrow then
      let sameEdits :=
        if orow.role ≠ nrow.role ∨ orow.time ≠ nrow.time ∨ orow.duration ≠ nrow.duration ∨
           orow.description ≠ nrow.description ∨ orow.script ≠ nrow.script then
          if created_idx < created_list.length then
            fieldEdits (created_list.getD created_idx 0) pn orow nrow
          else []
        else []
      (created_idx + 1, evs ++ sameEdits)
    else
      match nrow.id with
      | some nid =>
        if orow.id ≠ 0 ∧ nid ≠ 0 ∧ orow.id ≠ nid then
          let delEvs :=
            if !(dmem orow.id newById) then
              [LogEvent.row_delete orow.id pn (1 + posAuxOld old pn idx)]
            else []
          let is_truly_new_for_add :=
            !(dmem nid oldById) || decide (some nid ∈ dups) || is_new_temp
          if is_truly_new_for_add then
            if created_idx < created_list.length then
              (created_idx + 1 + 1,
               evs ++ delEvs ++
                 [.row_add (created_list.getD created_idx 0) pn
                   (1 + posAuxNew sortedNew pn idx)])
            else (created_idx + 1, evs ++ delEvs)
          else (created_idx + 1, evs ++ delEvs)
        else
          let editEvs :=
            if orow.id ≠ 0 ∧ some orow.id = nrow.id then
              if orow.role ≠ nrow.role ∨ orow.time ≠ nrow.time ∨
                 orow.duration ≠ nrow.duration ∨ orow.description ≠ nrow.description ∨
                 orow.script ≠ nrow.script then
                if created_idx < created_list.length then
                  fieldEdits (created_list.getD created_idx 0) pn orow nrow
                else []
              else []
            else []
          (created_idx + 1, evs ++ editEvs)
      | none =>
        let editEvs :=
          if orow.id ≠ 0 ∧ some orow.id = nrow.id then
            if orow.role ≠ nrow.role ∨ orow.time ≠ nrow.time ∨
               orow.duration ≠ nrow.duration ∨ orow.description ≠ nrow.description ∨
               orow.script ≠ nrow.script then
              if created_idx < created_list.length then
                fieldEdits (created_list.getD created_idx 0) pn orow nrow
              else []
            else []
          else []
        (created_idx + 1, evs ++ editEvs)

/-- The per-phase positional pass over all old phases (lines 1154-1360):
a phase absent from the payload loses all its (non-moved) rows; a
shared phase is scanned index by index. -/
def positionalPass (old : List OPhase) (newp : List PPhase) (sortedNew : List PPhase)
    (createdRows : List (Nat × List Nat)) (oldById newById : List (Nat × (Nat × Nat)))
    (movedIds : List Nat) (dups : List (Option Nat)) : List LogEvent :=
  old.foldl (fun evs ph =>
    match newp.find? (fun q => q.phase = ph.phase_number) with
    | none =>
      evs ++ (withIdx ph.rows 0).filterMap (fun ir =>
        if ir.2.id ∈ movedIds then none
        else some (.row_delete ir.2.id ph.phase_number
          (1 + posAuxOld old ph.phase_number ir.1)))
    | some np =>
      let created_list := (dget createdRows ph.phase_number).getD []
      let maxLen := max ph.rows.length np.rows.length
      ((List.range maxLen).foldl
        (posStep ph.phase_number old sortedNew ph.rows np.rows created_list
          oldById newById movedIds dups) (0, evs)).2) []

/-- Additions for phases that are new in the payload (lines 1362-1377). -/
def newPhaseAdds (old : List OPhase) (newp : List PPhase) (sortedNew : List PPhase)
    (createdRows : List (Nat × List Nat)) : List LogEvent :=
  newp.foldl (fun evs ph =>
    if old.any (fun q => q.phase_number = ph.phase) then evs
    else evs ++ (withIdx ((dget createdRows ph.phase).getD []) 0).map (fun inid =>
      LogEvent.row_add inid.2 ph.phase (1 + posAuxNew sortedNew ph.phase inid.1))) []

/-- Phase deletions: phases present before, absent from the payload. -/
def phaseDeleteEvents (old : List OPhase) (newp : List PPhase) : List LogEvent :=
  old.filterMap (fun ph =>
    if newp.any (fun q => q.phase = ph.phase_number) then none
    else some (.phase_delete ph.phase_id ph.phase_number))

/-- Phase additions: payload phases that did not exist before. -/
def phaseAddEvents (old : List OPhase) (newp : List PPhase)
    (createdPhases : List (Nat × Nat)) : List LogEvent :=
  newp.filterMap (fun ph =>
    if old.any (fun q => q.phase_number = ph.phase) then none
    else some (.phase_add ((dget createdPhases ph.phase).getD 0) ph.phase))

/-- Embedding of `update_table_data` (`api.py` lines 801-1387): delete
every phase (cascading to rows), recreate phases and rows from the
payload under fresh autoincrement ids, and emit the audit events — phase
deletions, phase additions, surviving row moves, the per-phase positional
adds / deletes / edits, and the additions of brand-new phases.  Inputs:
`old` is the pre-update state ordered by phase number with rows in
display order; counters are the next autoincrement ids. -/
def update_table_data (old : List OPhase) (newp : List PPhase)
    (firstPhaseId firstRowId now : Nat) :
    (List PhaseRec × List RowRec) × List LogEvent :=
  let r := recreateTables newp firstPhaseId firstRowId now
  let oldSig := buildOldSig old
  let oldById := buildOldById old
  let newSigList := buildNewSigList newp
  let newById := buildNewById newp
  let dups := detectDuplicates newSigList oldSig oldById
  let dm := detectMoves oldSig newSigList newById dups
  let toLog := movesFilter dm.1 old dm.2.2 newById
  let sortedNew := sortPhases newp
  ((r.1, r.2.1),
   phaseDeleteEvents old newp ++
   phaseAddEvents old newp r.2.2.1 ++
   logMoves toLog dups oldById r.2.2.2 old ++
   positionalPass old newp sortedNew r.2.2.2 oldById newById dm.2.1 dups ++
   newPhaseAdds old newp sortedNew r.2.2.2)

end Conductor

namespace Conductor

/-- Every recreated row carries an id at or above the row counter. -/
theorem recreate_row_ids (newp : List PPhase) :
    ∀ (pidc ridc now : Nat) (r : RowRec),
      r ∈ (recreateTables newp pidc ridc now).2.1 → ridc ≤ r.id := by
  induction newp with
  | nil => intro pidc ridc now r hr; cases hr
  | cons ph rest ih =>
    intro pidc ridc now r hr
    simp only [recreateTables] at hr
    rcases List.mem_append.mp hr with h | h
    · rcases List.mem_map.mp h with ⟨ir, hir, rfl⟩
      simp
    · have := ih (pidc + 1) (ridc + ph.rows.length) now r h
      omega

/-- Every recreated phase carries an id at or above the phase counter. -/
theorem recreate_phase_ids (newp : List PPhase) :
    ∀ (pidc ridc now : Nat) (p : PhaseRec),
      p ∈ (recreateTables newp pidc ridc now).1 → pidc ≤ p.id := by
  induction newp with
  | nil => intro pidc ridc now p hp; cases hp
  | cons ph rest ih =>
    intro pidc ridc now p hp
    simp only [recreateTables] at hp
    rcases List.mem_cons.mp hp with rfl | h
    · simp
    · have := ih (pidc + 1) (ridc + ph.rows.length) now p h
      omega

end Conductor

/-- C10: a manager bulk table update deletes every phase (cascading to
its rows) and recreates phases and rows from the payload under fresh
autoincrement identifiers, so no pre-existing row id (nor phase id)
survives the operation — even for rows whose content and position were
unchanged. -/
theorem C10_bulk_update_fresh_ids (old : List OPhase) (newp : List PPhase)
    (fpid frid now : Nat)
    (holdrow : ∀ ph ∈ old, ∀ r ∈ ph.rows, r.id < frid)
    (holdph : ∀ ph ∈ old, ph.phase_id < fpid) :
    (∀ r2 ∈ (update_table_data old newp fpid frid now).1.2,
       ∀ ph ∈ old, ∀ r ∈ ph.rows, r2.id ≠ r.id) ∧
    (∀ p2 ∈ (update_table_data old newp fpid frid now).1.1,
       ∀ ph ∈ old, p2.id ≠ ph.phase_id) := by
  constructor
  · intro r2 h2 ph hph r hr
    have h2' : r2 ∈ (recreateTables newp fpid frid now).2.1 := h2
    have hge := recreate_row_ids newp fpid frid now r2 h2'
    have hlt := holdrow ph hph r hr
    omega
  · intro p2 h2 ph hph
    have h2' : p2 ∈ (recreateTables newp fpid frid now).1 := h2
    have hge := recreate_phase_ids newp fpid frid now p2 h2'
    have hlt := holdph ph hph
    omega

/-- C10 witness: the recreated copy of an unchanged row has a fresh id. -/
theorem C10_bulk_update_fresh_ids_witness :
    ({ id := 4, phase_id := 11, role := "r", time := "", duration := "",
       description := "", script := "", status := "N/A",
       updated_at := 100 } : RowRec).id ≠ ({ id := 1, role := "r" } : ORow).id := by
  have h := (C10_bulk_update_fresh_ids
    [{ phase_number := 1, phase_id := 10, rows := [{ id := 1, role := "r" }] }]
    [{ phase := 1, rows := [{ id := some 1, role := "r", time := "",
                              duration := "", status := "N/A" }] }]
    11 4 100 (by decide) (by decide)).1
  exact h
    { id := 4, phase_id := 11, role := "r", time := "", duration := "",
      description := "", script := "", status := "N/A", updated_at := 100 }
    (by decide)
    { phase_number := 1, phase_id := 10, rows := [{ id := 1, role := "r" }] }
    (by decide)
    { id := 1, role := "r" } (by decide)

namespace Conductor

/-- Symmetry of a negated five-field signature equality. -/
theorem sig_conj_ne_symm {x1 x2 x3 x4 x5 y1 y2 y3 y4 y5 : String}
    (h : ¬(x1 = y1 ∧ x2 = y2 ∧ x3 = y3 ∧ x4 = y4 ∧ x5 = y5)) :
    ¬(y1 = x1 ∧ y2 = x2 ∧ y3 = x3 ∧ y4 = x4 ∧ y5 = x5) := by
  intro hc
  exact h ⟨hc.1.symm, hc.2.1.symm, hc.2.2.1.symm, hc.2.2.2.1.symm, hc.2.2.2.2.symm⟩

/-- Boolean form of a negated five-field signature equality. -/
theorem sig_decide_false {x1 x2 x3 x4 x5 y1 y2 y3 y4 y5 : String}
    (h : ¬(x1 = y1 ∧ x2 = y2 ∧ x3 = y3 ∧ x4 = y4 ∧ x5 = y5)) :
    (decide (x1 = y1) && (decide (x2 = y2) && (decide (x3 = y3) &&
      (decide (x4 = y4) && decide (x5 = y5))))) = false := by
  rw [Bool.eq_false_iff]
  intro hc
  simp only [ne_eq, Bool.and_eq_true, decide_eq_true_eq] at hc
  exact absurd ⟨hc.1, hc.2.1, hc.2.2.1, hc.2.2.2.1, hc.2.2.2.2⟩ h

end Conductor

/-- C6: with Old = {Phase pn : [A, B, C]} and New = {Phase pn : [B, C]}
(A deleted, B and C keeping their ids and relative order but with both
indices shifted down by one), the bulk-update audit diff emits exactly
one row deletion (for A, at display position 1) and zero row moves —
the two one-step shift candidates are suppressed as cascade artifacts —
and the submission diff of `create_pending_change` likewise emits
exactly one `row_delete` for A and zero `row_move` changes. -/
theorem C6_single_delete_suppresses_moves (a b c : ORow)
    (pn pid fpid frid now ta tb tc : Nat) (act pact : Bool)
    (ha0 : a.id ≠ 0) (hb0 : b.id ≠ 0) (hc0 : c.id ≠ 0)
    (hab : a.id ≠ b.id) (hac : a.id ≠ c.id) (hbc : b.id ≠ c.id)
    (hsab : sigO a ≠ sigO b) (hsac : sigO a ≠ sigO c) (hsbc : sigO b ≠ sigO c) :
    (((update_table_data
        [{ phase_number := pn, phase_id := pid, is_active := act, rows := [a, b, c] }]
        [{ phase := pn, is_active := pact,
           rows := [{ id := some b.id, role := b.role, time := b.time,
                      duration := b.duration, description := b.description,
                      script := b.script, status := b.status },
                    { id := some c.id, role := c.role, time := c.time,
                      duration := c.duration, description := c.description,
                      script := c.script, status := c.status }] }]
        fpid frid now).2.filter LogEvent.isRowDelete) =
       [LogEvent.row_delete a.id pn 1] ∧
     ((update_table_data
        [{ phase_number := pn, phase_id := pid, is_active := act, rows := [a, b, c] }]
        [{ phase := pn, is_active := pact,
           rows := [{ id := some b.id, role := b.role, time := b.time,
                      duration := b.duration, description := b.description,
                      script := b.script, status := b.status },
                    { id := some c.id, role := c.role, time := c.time,
                      duration := c.duration, description := c.description,
                      script := c.script, status := c.status }] }]
        fpid frid now).2.filter LogEvent.isRowMove) = []) ∧
    (((create_pending_change_diff
        { version := "v1", manager_role := "Mgr",
          phases := [{ id := pid, phase_number := pn, is_active := act }],
          rows := [{ id := a.id, phase_id := pid, role := a.role, time := a.time,
                     duration := a.duration, description := a.description,
                     script := a.script, status := a.status, updated_at := ta },
                   { id := b.id, phase_id := pid, role := b.role, time := b.time,
                     duration := b.duration, description := b.description,
                     script := b.script, status := b.status, updated_at := tb },
                   { id := c.id, phase_id := pid, role := c.role, time := c.time,
                     duration := c.duration, description := c.description,
                     script := c.script, status := c.status, updated_at := tc }] }
        { table_data := some
            [{ phase := some pn,
               rows := [rowDict { id := b.id, phase_id := pid, role := b.role,
                                  time := b.time, duration := b.duration,
                                  description := b.description, script := b.script,
                                  status := b.status, updated_at := tb },
                        rowDict { id := c.id, phase_id := pid, role := c.role,
                                  time := c.time, duration := c.duration,
                                  description := c.description, script := c.script,
                                  status := c.status, updated_at := tc }] }] }).filter
        (fun ch => ch.isRowDelete)) =
       [ChangeData.row_delete a.id
         (rowDataOfRowRec { id := a.id, phase_id := pid, role := a.role, time := a.time,
                            duration := a.duration, description := a.description,
                            script := a.script, status := a.status, updated_at := ta })] ∧
     ((create_pending_change_diff
        { version := "v1", manager_role := "Mgr",
          phases := [{ id := pid, phase_number := pn, is_active := act }],
          rows := [{ id := a.id, phase_id := pid, role := a.role, time := a.time,
                     duration := a.duration, description := a.description,
                     script := a.script, status := a.status, updated_at := ta },
                   { id := b.id, phase_id := pid, role := b.role, time := b.time,
                     duration := b.duration, description := b.description,
                     script := b.script, status := b.status, updated_at := tb },
                   { id := c.id, phase_id := pid, role := c.role, time := c.time,
                     duration := c.duration, description := c.description,
                     script := c.script, status := c.status, updated_at := tc }] }
        { table_data := some
            [{ phase := some pn,
               rows := [rowDict { id := b.id, phase_id := pid, role := b.role,
                                  time := b.time, duration := b.duration,
                                  description := b.description, script := b.script,
                                  status := b.status, updated_at := tb },
                        rowDict { id := c.id, phase_id := pid, role := c.role,
                                  time := c.time, duration := c.duration,
                                  description := c.description, script := c.script,
                                  status := c.status, updated_at := tc }] }] }).filter
        (fun ch => ch.isRowMove)) = []) := by
  simp only [sigO, Prod.mk.injEq, ne_eq] at hsab hsac hsbc
  have hsba := sig_conj_ne_symm hsab
  have hsca := sig_conj_ne_symm hsac
  have hscb := sig_conj_ne_symm hsbc
  have hBab := sig_decide_false hsab
  have hBba := sig_decide_false hsba
  have hBac := sig_decide_false hsac
  have hBca := sig_decide_false hsca
  have hBbc := sig_decide_false hsbc
  have hBcb := sig_decide_false hscb
  have hba : b.id ≠ a.id := Ne.symm hab
  have hca : c.id ≠ a.id := Ne.symm hac
  have hcb : c.id ≠ b.id := Ne.symm hbc
  have hrange : List.range 3 = [0, 1, 2] := rfl
  refine ⟨⟨?_, ?_⟩, ?_, ?_⟩ <;>
  · simp [update_table_data, recreateTables, buildOldSig, buildOldById, buildNewSigList,
      buildNewById, detectDuplicates, detectMoves, movesFilter, maxByChange,
      isCascadingShift, matchRowInList, addDelIdx, logMoves, positionalPass, posStep,
      newPhaseAdds, phaseDeleteEvents, phaseAddEvents, dinsert, dget, dmem, pyAdd,
      withIdx, sigO, sigP, optNeNat, natDist, posAuxOld, posAuxNew, sortPhases,
      insertPhaseSorted, oldIdAt, newIdAt, fieldEdits, LogEvent.isRowDelete,
      LogEvent.isRowMove, List.find?, List.getD, hrange,
      create_pending_change_diff, phaseChanges, currentPhaseRows, phaseAdds,
      phaseUpdates, phaseDeletes, newRowIds, roleChanges, scriptChanges, rowDict,
      rowDataOfSRow, rowDataOfRowRec, truthy, optMemNat, explicitMoves, explicitDups,
      movedRows, duplicatedRows, ChangeData.isRowAdd, ChangeData.isRowDelete,
      ChangeData.isRowMove, ChangeData.isRowDuplicate,
      ha0, hb0, hc0, hab, hac, hbc, hba, hca, hcb,
      hsab, hsac, hsbc, hsba, hsca, hscb, hBab, hBba, hBac, hBca, hBbc, hBcb]

/-- Witness for C6: a concrete three-row phase with the middle state deleted. -/
theorem C6_single_delete_suppresses_moves_witness :
    (1 : Nat) ≠ 0 ∧ (2 : Nat) ≠ 0 ∧ (3 : Nat) ≠ 0 ∧
    (1 : Nat) ≠ 2 ∧ (1 : Nat) ≠ 3 ∧ (2 : Nat) ≠ 3 ∧
    sigO { id := 1, role := "Alice" } ≠ sigO { id := 2, role := "Bob" } ∧
    sigO { id := 1, role := "Alice" } ≠ sigO { id := 3, role := "Carol" } ∧
    sigO { id := 2, role := "Bob" } ≠ sigO { id := 3, role := "Carol" } ∧
    ((update_table_data
        [{ phase_number := 1, phase_id := 7, is_active := true,
           rows := [{ id := 1, role := "Alice" }, { id := 2, role := "Bob" },
                    { id := 3, role := "Carol" }] }]
        [{ phase := 1, is_active := true,
           rows := [{ id := some 2, role := "Bob", time := "", duration := "",
                      description := "", script := "", status := "N/A" },
                    { id := some 3, role := "Carol", time := "", duration := "",
                      description := "", script := "", status := "N/A" }] }]
        100 200 42).2.filter LogEvent.isRowDelete) = [LogEvent.row_delete 1 1 1] :=
  ⟨by decide, by decide, by decide, by decide, by decide, by decide,
   by decide, by decide, by decide,
   (C6_single_delete_suppresses_moves
     { id := 1, role := "Alice" } { id := 2, role := "Bob" } { id := 3, role := "Carol" }
     1 7 100 200 42 10 11 12 true true
     (by decide) (by decide) (by decide) (by decide) (by decide) (by decide)
     (by decide) (by decide) (by decide)).1.1⟩
